import Mathlib

/-!
Verification of the embedded Whac-A-Mole core (device firmware).

This file gives a shallow embedding, in Lean 4, of the device-side data
model and algorithms of the repository: the game event/command types
(`rtos_queues.h`), the xorshift RNG (`next_rand`), the offline event ring
buffer and telemetry (agent) task (`uart_cmd.c` / `agent.c`), the UART
command dispatcher (`UART_Handler`), and the game task state machine
(`game.c`: `drain_cmd_queue`, `pop_do`, `game_run_level`, `game_run`,
`await_start`, `game_task`).

Modelling conventions:
* machine integers are `Nat` with explicit `% 2 ^ 32` / `% 256` where the C
  code can overflow (`next_rand`, the `uint8_t` lives decrement);
* the FreeRTOS tick counter is a `Nat` (`configTICK_RATE_HZ = 1000`, so
  `pdMS_TO_TICKS` is the identity);
* the environment of the game task is a pair of streams: `cmds k` is the
  batch of commands drained by the k-th call to `drain_cmd_queue`, and
  `reads k` is the byte returned by the k-th `io_expander_read_btns` call
  (reads are modelled as always succeeding; delays, LED writes and prints
  have no observable effect in the model);
* unbounded `while` loops that are reactive (the level loop of `game_run`,
  the idle loop of `await_start`) take a fuel parameter; running out of
  fuel is reported by a distinguished exit value and corresponds to no
  terminating C execution;
* "emitting" an event means calling `xQueueSend` on the event queue; the
  model records the emission order as a list.
-/

namespace Whacamole

/-! ## Data model (`rtos_queues.h`, `game.h`) -/

/-- `pop_outcome_t` -/
inductive PopOutcome where
  | hit
  | miss
  | late
deriving DecidableEq, Repr

/-- Payload of `EVENT_POP_RESULT` (`game_event_t.data.pop`). -/
structure PopData where
  mole : Nat
  outcome : PopOutcome
  reaction_ms : Nat
  lives : Nat
  level : Nat
  pop_index : Nat
  pops_total : Nat
deriving DecidableEq, Repr

/-- `game_event_t` -/
inductive GameEvent where
  | sessionStart
  | popResult (p : PopData)
  | levelComplete (level : Nat)
  | sessionEnd (won : Bool)
deriving DecidableEq, Repr

/-- `cmd_type_t` -/
inductive CmdType where
  | setLevel
  | reset
  | start
deriving DecidableEq, Repr

/-- `cmd_msg_t` -/
structure CmdMsg where
  type : CmdType
  level : Nat
deriving DecidableEq, Repr

/-! ## Constants (`game.h`, `rtos_queues.h`, `btn.h`, `leds.h`) -/

def LVLS : Nat := 8
def LIVES : Nat := 5
def RNG_INIT_STATE : Nat := 0xDEADBEEF
def EVENT_BUFFER_SIZE : Nat := 100
def AGENT_TIMEOUT_MS : Nat := 60000
def EVENT_QUEUE_LENGTH : Nat := 32
def CMD_QUEUE_LENGTH : Nat := 8
def LED_COUNT : Nat := 8
def BTN_HW_STATE : Nat := 0xFF

/-- `POPS_PER_LVL` from the game task source: `{[0 ... 7] = 10}`. -/
def POPS_PER_LVL : List Nat := List.replicate 8 10

/-- `POP_DURATIONS` from the game task source (`game.c`, the revision that
emits telemetry events): `{1500, 1250, 1000, 750, 600, 500, 350, 275}`. -/
def POP_DURATIONS : List Nat := [1500, 1250, 1000, 750, 600, 500, 350, 275]

/-- `POP_DURATIONS` from the superseded standalone revision
`src/emb/src/game.c` line 13:
`{1500, 1250, 1000, 750, 600, 500, 350, 250}`. -/
def POP_DURATIONS_legacy : List Nat := [1500, 1250, 1000, 750, 600, 500, 350, 250]

/-- `BTN_MAP` (logical button index to hardware pin). -/
def BTN_MAP : List Nat := [6, 4, 2, 1, 7, 5, 3, 0]

/-- `is_btn_pressed`: `!(btn_state & (1 << BTN_MAP[btn]))` (active-low). -/
def is_btn_pressed (btn : Nat) (btn_state : Nat) : Bool :=
  ! btn_state.testBit (BTN_MAP.getD btn 0)

/-- `next_rand` (`utils.c`): 32-bit xorshift
`x ^= x<<13; x ^= x>>17; x ^= x<<5` on `uint32_t`. -/
def next_rand (state : Nat) : Nat :=
  let x := state % 2 ^ 32
  let x := (x ^^^ (x <<< 13)) % 2 ^ 32
  let x := x ^^^ (x >>> 17)
  (x ^^^ (x <<< 5)) % 2 ^ 32

/-! ## Offline event ring buffer (`uart_cmd.c` / `agent.c`)

`event_ring_buffer_t` holds `EVENT_BUFFER_SIZE = 100` events with `head`
(next write), `tail` (next read) and `count`. The C array is modelled as a
total function `Nat → GameEvent` that is only ever read at indices `< 100`;
the unwritten slots hold the zero-initialised static value. -/

structure EventRingBuffer where
  events : Nat → GameEvent
  head : Nat
  tail : Nat
  count : Nat

/-- `event_buffer_init` (zero-initialised static struct). -/
def event_buffer_init : EventRingBuffer :=
  { events := fun _ => GameEvent.sessionStart, head := 0, tail := 0, count := 0 }

/-- `event_buffer_push`: write at `head`, advance `head`; if full, advance
`tail` instead of growing `count` (overwrite oldest). -/
def event_buffer_push (s : EventRingBuffer) (e : GameEvent) : EventRingBuffer :=
  let events := fun i => if i = s.head then e else s.events i
  let head := (s.head + 1) % EVENT_BUFFER_SIZE
  if s.count < EVENT_BUFFER_SIZE then
    { events := events, head := head, tail := s.tail, count := s.count + 1 }
  else
    { events := events, head := head, tail := (s.tail + 1) % EVENT_BUFFER_SIZE,
      count := s.count }

/-- `event_buffer_pop`: returns `none` when empty, otherwise the event at
`tail` together with the advanced buffer. -/
def event_buffer_pop (s : EventRingBuffer) : Option (GameEvent × EventRingBuffer) :=
  if s.count = 0 then none
  else some (s.events s.tail,
    { s with tail := (s.tail + 1) % EVENT_BUFFER_SIZE, count := s.count - 1 })

/-- `event_buffer_flush`: pop-and-send until empty; returns the sent events
in order together with the drained buffer. -/
def event_buffer_flush (s : EventRingBuffer) : List GameEvent × EventRingBuffer :=
  if h : s.count = 0 then ([], s)
  else
    let e := s.events s.tail
    let s' : EventRingBuffer :=
      { s with tail := (s.tail + 1) % EVENT_BUFFER_SIZE, count := s.count - 1 }
    let r := event_buffer_flush s'
    (e :: r.1, r.2)
termination_by s.count
decreasing_by omega

/-- Abstraction: the logical FIFO contents of the ring, oldest first. -/
def bufContents (s : EventRingBuffer) : List GameEvent :=
  (List.range s.count).map (fun i => s.events ((s.tail + i) % EVENT_BUFFER_SIZE))

/-- Representation invariant of the ring buffer. -/
def BufInv (s : EventRingBuffer) : Prop :=
  s.tail < EVENT_BUFFER_SIZE ∧ s.count ≤ EVENT_BUFFER_SIZE ∧
    s.head = (s.tail + s.count) % EVENT_BUFFER_SIZE

/-- A single buffer operation, for quantifying over operation sequences. -/
inductive BufOp where
  | push (e : GameEvent)
  | pop
deriving Repr

/-- Run a sequence of operations from the initialised buffer (a failed pop
on an empty buffer leaves the buffer unchanged, as in the C code). -/
def runBufOps (ops : List BufOp) : EventRingBuffer :=
  ops.foldl
    (fun s op =>
      match op with
      | BufOp.push e => event_buffer_push s e
      | BufOp.pop =>
        match event_buffer_pop s with
        | none => s
        | some (_, s') => s')
    event_buffer_init

/-- Specification-level push, in the words of the spec: append; on
overflow evict exactly the oldest entry. -/
def modelPush (l : List GameEvent) (e : GameEvent) : List GameEvent :=
  if l.length < EVENT_BUFFER_SIZE then l ++ [e] else l.tail ++ [e]

/-- Specification-level run of an operation sequence over a plain list. -/
def modelRunOps (ops : List BufOp) : List GameEvent :=
  ops.foldl
    (fun l op =>
      match op with
      | BufOp.push e => modelPush l e
      | BufOp.pop => l.tail)
    []

/-- The buffer obtained from a successful `event_buffer_pop`. -/
def popNext (s : EventRingBuffer) : EventRingBuffer :=
  { s with tail := (s.tail + 1) % EVENT_BUFFER_SIZE, count := s.count - 1 }

/-! ## Telemetry (agent) task (`uart_cmd.c`, `agent_task`)

One iteration of the `while (true)` loop of `agent_task`.  `now` is the
value of `xTaskGetTickCount()` for this iteration (`configTICK_RATE_HZ =
1000`, so `pdMS_TO_TICKS` is the identity), and `incoming` is the batch of
events received from `event_queue` during this iteration's drain loop.
`devid_ok` tells whether `MXC_SYS_GetUSN` succeeds in `get_devid` (when it
fails, `send_identify` prints nothing).  The frames printed to the serial
stream are collected in order. -/

/-- A line written to the serial stream: the identify frame or an event
frame (`send_identify` / `send_event_json`). -/
inductive Frame where
  | identify
  | event (e : GameEvent)
deriving DecidableEq, Repr

/-- Connection state owned by the telemetry task (`agent_connected`,
`last_command_tick`, `identify_requested`) together with the ring buffer. -/
structure AgentSt where
  agent_connected : Bool
  last_command_tick : Nat
  identify_requested : Bool
  buffer : EventRingBuffer

/-- One iteration of `agent_task`: timeout check, identify handling
(flush **then** identify frame, as in the source), then the event-queue
drain (send when connected, buffer when not). Returns the new state and
the frames sent on serial, in order. -/
def agent_iter (s : AgentSt) (now : Nat) (incoming : List GameEvent)
    (devid_ok : Bool) : AgentSt × List Frame :=
  -- 1. connectivity timeout
  let s := if s.agent_connected ∧ now - s.last_command_tick > AGENT_TIMEOUT_MS
    then { s with agent_connected := false } else s
  -- 2. identify request: reconnect, flush the ring buffer, send identify
  let step2 : AgentSt × List Frame :=
    if s.identify_requested then
      let fl := event_buffer_flush s.buffer
      ({ s with identify_requested := false, agent_connected := true,
                last_command_tick := now, buffer := fl.2 },
       fl.1.map Frame.event ++ (if devid_ok then [Frame.identify] else []))
    else (s, [])
  -- 3. drain the event queue
  incoming.foldl
    (fun acc e =>
      if acc.1.agent_connected then (acc.1, acc.2 ++ [Frame.event e])
      else ({ acc.1 with buffer := event_buffer_push acc.1.buffer e }, acc.2))
    step2

/-! ## UART command dispatcher (`uart_cmd.c`, `UART_Handler`)

The ISR-visible state: the command queue (capacity `CMD_QUEUE_LENGTH`,
ISR-safe enqueue drops silently when full), the three shared flags, and
whether the pause task has been notified during this interrupt. -/

structure DispatchSt where
  cmd_queue : List CmdMsg
  identify_requested : Bool
  agent_connected : Bool
  last_command_tick : Nat
  pause_notified : Bool
deriving DecidableEq, Repr

/-- `xQueueSendFromISR` on the command queue: drop silently when full. -/
def cmd_queue_send (q : List CmdMsg) (c : CmdMsg) : List CmdMsg :=
  if q.length < CMD_QUEUE_LENGTH then q ++ [c] else q

/-- Processing of one byte drained from the RX FIFO by `UART_Handler`:
first the connectivity-timer refresh (every byte except `D`), then the
command switch. -/
def uart_process_byte (s : DispatchSt) (now : Nat) (c : Char) : DispatchSt :=
  let s := if c ≠ 'D' then { s with last_command_tick := now } else s
  if c = 'P' then { s with pause_notified := true }
  else if c = 'D' then { s with agent_connected := false }
  else if c = 'R' then { s with cmd_queue := cmd_queue_send s.cmd_queue ⟨CmdType.reset, 0⟩ }
  else if c = 'S' then { s with cmd_queue := cmd_queue_send s.cmd_queue ⟨CmdType.start, 0⟩ }
  else if '1' ≤ c ∧ c ≤ '8' then
    { s with cmd_queue :=
        cmd_queue_send s.cmd_queue ⟨CmdType.setLevel, c.toNat - '0'.toNat⟩ }
  else if c = 'I' then { s with identify_requested := true }
  else s

/-- `UART_Handler`: drain the RX FIFO fully, processing each byte. -/
def UART_Handler (s : DispatchSt) (now : Nat) (bytes : List Char) : DispatchSt :=
  bytes.foldl (fun s c => uart_process_byte s now c) s

/-! ## Game task (`game.c`, telemetry-emitting revision)

Static game state of `game.c` and the environment of one execution.
`cmds k` is the batch of commands consumed by the k-th `drain_cmd_queue`
call and `reads k` the byte returned by the k-th `io_expander_read_btns`
call (reads modelled as succeeding; I²C errors are out of model). -/

structure GameSt where
  lives : Nat
  rng_state : Nat
  requested_level_idx : Nat
  level_change_pending : Bool
  reset_requested : Bool
  start_requested : Bool
  reset_abort_session : Bool
deriving DecidableEq, Repr

/-- Zero-initialised statics of `game.c` (before any task runs). -/
def game_static_init : GameSt :=
  { lives := 0, rng_state := 0, requested_level_idx := 0,
    level_change_pending := false, reset_requested := false,
    start_requested := false, reset_abort_session := false }

structure GameEnv where
  cmds : Nat → List CmdMsg
  reads : Nat → Nat

/-- Effect of one received command inside `drain_cmd_queue`'s switch. -/
def drain_cmd_step (st : GameSt) (cmd : CmdMsg) : GameSt :=
  match cmd.type with
  | CmdType.setLevel =>
    if 1 ≤ cmd.level ∧ cmd.level ≤ LVLS then
      { st with requested_level_idx := cmd.level - 1, level_change_pending := true }
    else st
  | CmdType.reset =>
    { st with reset_requested := true, level_change_pending := false,
              requested_level_idx := 0, start_requested := false }
  | CmdType.start => { st with start_requested := true }

/-- `drain_cmd_queue`: consume the k-th command batch. -/
def drain_cmd_queue (st : GameSt) (env : GameEnv) (dIdx : Nat) : GameSt × Nat :=
  ((env.cmds dIdx).foldl drain_cmd_step st, dIdx + 1)

/-- `apply_reset_state`. -/
def apply_reset_state (abort_session : Bool) (st : GameSt) : GameSt :=
  { st with reset_requested := false, level_change_pending := false,
            start_requested := false, requested_level_idx := 0,
            lives := LIVES, rng_state := RNG_INIT_STATE,
            reset_abort_session := abort_session }

/-- `requested_level_or_default`. -/
def requested_level_or_default (st : GameSt) : Nat :=
  if st.requested_level_idx < LVLS then st.requested_level_idx else 0

/-- `should_switch_level`. -/
def should_switch_level (current_level_idx : Nat) (st : GameSt) : Bool :=
  st.level_change_pending && decide (st.requested_level_idx < LVLS) &&
    decide (st.requested_level_idx ≠ current_level_idx)

/-- `uint8_t` decrement (`lives--`). -/
def dec_u8 (l : Nat) : Nat := (l + 255) % 256

/-- Button-debounce loop at the start of `pop_do`: poll every 10 ms until
all buttons released (`0xFF`) or more than 50 ms accumulated. The first
argument is a structural iteration counter: the loop body runs at most 6
times (`db_time` reaching 60 breaks), so calling with counter 6 and
`db_time = 0` covers every C execution and the counter-0 case is never
reached from that entry. Returns the read cursor after the loop. -/
def pop_debounce (reads : Nat → Nat) : Nat → Nat → Nat → Nat
  | 0, rIdx, _db_time => rIdx + 1
  | fuel + 1, rIdx, db_time =>
    let b := reads rIdx
    if b ≠ BTN_HW_STATE then
      if db_time + 10 > 50 then rIdx + 1
      else pop_debounce reads fuel (rIdx + 1) (db_time + 10)
    else rIdx + 1

/-- The 5 ms polling loop of `pop_do`: returns the outcome, the recorded
`reaction_ms` and the new read cursor. The first argument is a structural
iteration counter; called with counter `duration_ms` and `elapsed = 0`,
it never reaches 0 while `elapsed < duration_ms` still holds (each
iteration adds 5 to `elapsed`), and its 0-case coincides with the
loop-exit (`Late`) result. -/
def pop_poll (reads : Nat → Nat) (target_led duration_ms : Nat) :
    Nat → Nat → Nat → PopOutcome × Nat × Nat
  | 0, _elapsed, rIdx => (PopOutcome.late, duration_ms, rIdx)
  | fuel + 1, elapsed, rIdx =>
    if elapsed < duration_ms then
      let b := reads rIdx
      if b ≠ BTN_HW_STATE then
        ((if is_btn_pressed target_led b then PopOutcome.hit else PopOutcome.miss),
          elapsed, rIdx + 1)
      else pop_poll reads target_led duration_ms fuel (elapsed + 5) (rIdx + 1)
    else (PopOutcome.late, duration_ms, rIdx)

/-- `pop_do`: choose the target mole from the RNG, debounce, then poll.
Returns `(outcome, mole, reaction_ms, rng_state', read cursor')`. -/
def pop_do (lvl_idx : Nat) (rng : Nat) (reads : Nat → Nat) (rIdx : Nat) :
    PopOutcome × Nat × Nat × Nat × Nat :=
  let duration_ms := POP_DURATIONS.getD lvl_idx 0
  let rng' := next_rand rng
  let target_led := rng' % LED_COUNT
  let rIdx₁ := pop_debounce reads 6 rIdx 0
  let p := pop_poll reads target_led duration_ms duration_ms 0 rIdx₁
  (p.1, target_led, p.2.1, rng', p.2.2)

/-- Result of a game-task control block: final state, command/read
cursors, and the events emitted (in `xQueueSend` order). -/
structure GameOut where
  st : GameSt
  dIdx : Nat
  rIdx : Nat
  out : List GameEvent
deriving Repr, DecidableEq

/-- The pop loop of `game_run_level` from pop index `pop` on, with
`remaining = pops - pop` iterations left (the structural counter for the
`for (pop = 0; pop < pops; pop++)` loop); on normal completion of all
`pops` pops it emits `LevelComplete`. -/
def game_run_level_go (env : GameEnv) (lvl_idx pops : Nat) :
    Nat → Nat → GameSt → Nat → Nat → GameOut
  | 0, _pop, st, dIdx, rIdx =>
    ⟨st, dIdx, rIdx, [GameEvent.levelComplete (lvl_idx + 1)]⟩
  | remaining + 1, pop, st, dIdx, rIdx =>
    let d₁ := drain_cmd_queue st env dIdx
    let st := d₁.1
    if st.reset_requested then ⟨apply_reset_state true st, d₁.2, rIdx, []⟩
    else if should_switch_level lvl_idx st then ⟨st, d₁.2, rIdx, []⟩
    else
      -- pop_wait_delay: one RNG step, then sleep (no observable effect)
      let st := { st with rng_state := next_rand st.rng_state }
      let d₂ := drain_cmd_queue st env d₁.2
      let st := d₂.1
      if st.reset_requested then ⟨apply_reset_state true st, d₂.2, rIdx, []⟩
      else if should_switch_level lvl_idx st then ⟨st, d₂.2, rIdx, []⟩
      else
        let p := pop_do lvl_idx st.rng_state env.reads rIdx
        let st := { st with rng_state := p.2.2.2.1 }
        let rIdx := p.2.2.2.2
        if p.1 = PopOutcome.hit then
          let ev := GameEvent.popResult
            ⟨p.2.1, p.1, p.2.2.1, st.lives, lvl_idx + 1, pop + 1, pops⟩
          if st.reset_requested then ⟨apply_reset_state true st, d₂.2, rIdx, [ev]⟩
          else if should_switch_level lvl_idx st then ⟨st, d₂.2, rIdx, [ev]⟩
          else
            let r := game_run_level_go env lvl_idx pops remaining (pop + 1) st d₂.2 rIdx
            ⟨r.st, r.dIdx, r.rIdx, ev :: r.out⟩
        else
          let st := { st with lives := dec_u8 st.lives }
          let ev := GameEvent.popResult
            ⟨p.2.1, p.1, p.2.2.1, st.lives, lvl_idx + 1, pop + 1, pops⟩
          if st.lives = 0 then ⟨st, d₂.2, rIdx, [ev]⟩
          else if st.reset_requested then ⟨apply_reset_state true st, d₂.2, rIdx, [ev]⟩
          else if should_switch_level lvl_idx st then ⟨st, d₂.2, rIdx, [ev]⟩
          else
            let r := game_run_level_go env lvl_idx pops remaining (pop + 1) st d₂.2 rIdx
            ⟨r.st, r.dIdx, r.rIdx, ev :: r.out⟩

/-- `game_run_level` (the `lvl_show` animation has no observable effect):
run the pop loop from pop 0 with all `pops` iterations remaining. -/
def game_run_level (lvl_idx pops : Nat) (st : GameSt) (env : GameEnv)
    (dIdx rIdx : Nat) : GameOut :=
  game_run_level_go env lvl_idx pops pops 0 st dIdx rIdx

/-- How `game_run` returned. `fuelOut` is a model artefact for the
reactive `while (lvl < LVLS)` loop; every terminating C execution is
represented with some sufficient fuel and a non-`fuelOut` exit. -/
inductive RunExit where
  | resetBeforeStart
  | abortEnd
  | gameOver
  | win
  | fuelOut
deriving DecidableEq, Repr

/-- The `while (lvl < LVLS)` loop of `game_run` together with the code
after the loop. -/
def game_run_loop (env : GameEnv) (fuel lvl : Nat) (st : GameSt)
    (dIdx rIdx : Nat) : GameOut × RunExit :=
  match fuel with
  | 0 => (⟨st, dIdx, rIdx, []⟩, RunExit.fuelOut)
  | fuel + 1 =>
    if lvl < LVLS then
      let r := game_run_level lvl (POPS_PER_LVL.getD lvl 0) st env dIdx rIdx
      let st := r.st
      if st.reset_abort_session then
        (⟨{ st with reset_abort_session := false }, r.dIdx, r.rIdx,
          r.out ++ [GameEvent.sessionEnd false]⟩, RunExit.abortEnd)
      else if st.lives = 0 then
        (⟨st, r.dIdx, r.rIdx, r.out ++ [GameEvent.sessionEnd false]⟩,
          RunExit.gameOver)
      else
        let d := drain_cmd_queue st env r.dIdx
        let st := d.1
        if st.reset_requested then
          let st := apply_reset_state true st
          (⟨{ st with reset_abort_session := false }, d.2, r.rIdx,
            r.out ++ [GameEvent.sessionEnd false]⟩, RunExit.abortEnd)
        else if st.level_change_pending then
          let target_lvl := requested_level_or_default st
          let st := { st with level_change_pending := false }
          if target_lvl ≠ lvl then
            let k := game_run_loop env fuel target_lvl st d.2 r.rIdx
            (⟨k.1.st, k.1.dIdx, k.1.rIdx, r.out ++ k.1.out⟩, k.2)
          else
            let k := game_run_loop env fuel (lvl + 1) st d.2 r.rIdx
            (⟨k.1.st, k.1.dIdx, k.1.rIdx, r.out ++ k.1.out⟩, k.2)
        else
          let k := game_run_loop env fuel (lvl + 1) st d.2 r.rIdx
          (⟨k.1.st, k.1.dIdx, k.1.rIdx, r.out ++ k.1.out⟩, k.2)
    else
      if st.reset_requested then
        let st := apply_reset_state true st
        (⟨{ st with reset_abort_session := false }, dIdx, rIdx,
          [GameEvent.sessionEnd false]⟩, RunExit.abortEnd)
      else (⟨st, dIdx, rIdx, [GameEvent.sessionEnd true]⟩, RunExit.win)

/-- `game_run`: reset lives and RNG, drain once, handle reset-before-
start, fix the starting level, clear pending flags, emit `SessionStart`,
then run the level loop. -/
def game_run (st : GameSt) (env : GameEnv) (dIdx rIdx fuel : Nat) :
    GameOut × RunExit :=
  let st := { st with lives := LIVES, rng_state := RNG_INIT_STATE }
  let d := drain_cmd_queue st env dIdx
  let st := d.1
  if st.reset_requested then
    (⟨apply_reset_state false st, d.2, rIdx, []⟩, RunExit.resetBeforeStart)
  else
    let lvl := requested_level_or_default st
    let st := { st with level_change_pending := false, start_requested := false }
    let k := game_run_loop env fuel lvl st d.2 rIdx
    (⟨k.1.st, k.1.dIdx, k.1.rIdx, GameEvent.sessionStart :: k.1.out⟩, k.2)

/-- Result of the inner button-scan loops of `await_start`: the `goto
success`, `goto restart_idle` (reset observed), or normal completion of
the loop body. -/
inductive AwaitInner where
  | success (st : GameSt) (dIdx rIdx : Nat)
  | restart (st : GameSt) (dIdx rIdx : Nat)
  | rowDone (st : GameSt) (dIdx rIdx : Nat)
deriving Repr

/-- The inner `for (j = 0; j < 50; j++)` slice loop of `await_start`. -/
def await_j_loop (env : GameEnv) (st : GameSt) (dIdx rIdx j : Nat) : AwaitInner :=
  if j < 50 then
    let d := drain_cmd_queue st env dIdx
    let st := d.1
    if st.reset_requested then
      AwaitInner.restart (apply_reset_state false st) d.2 rIdx
    else if st.start_requested then
      AwaitInner.success { st with start_requested := false } d.2 rIdx
    else
      let b := env.reads rIdx
      if b ≠ BTN_HW_STATE then AwaitInner.success st d.2 (rIdx + 1)
      else await_j_loop env st d.2 (rIdx + 1) (j + 1)
  else AwaitInner.rowDone st dIdx rIdx
termination_by 50 - j
decreasing_by omega

/-- The outer `for (i = 0; i < 8; i++)` LED loop of `await_start`. -/
def await_i_loop (env : GameEnv) (st : GameSt) (dIdx rIdx i : Nat) : AwaitInner :=
  if i < 8 then
    match await_j_loop env st dIdx rIdx 0 with
    | AwaitInner.success st d r => AwaitInner.success st d r
    | AwaitInner.restart st d r => AwaitInner.restart st d r
    | AwaitInner.rowDone st d r => await_i_loop env st d r (i + 1)
  else AwaitInner.rowDone st dIdx rIdx
termination_by 8 - i
decreasing_by omega

/-- Result of `await_start`: start observed (button or `S`), or fuel ran
out while idling (a model artefact for the unbounded idle loop). -/
inductive AwaitRes where
  | success (st : GameSt) (dIdx rIdx : Nat)
  | fuelOut (st : GameSt) (dIdx rIdx : Nat)
deriving Repr

/-- `await_start`: the idle loop (one fuel unit per `while (true)` pass). -/
def await_start (env : GameEnv) (st : GameSt) (dIdx rIdx fuel : Nat) : AwaitRes :=
  match fuel with
  | 0 => AwaitRes.fuelOut st dIdx rIdx
  | fuel + 1 =>
    let d := drain_cmd_queue st env dIdx
    let st := d.1
    if st.reset_requested then
      await_start env (apply_reset_state false st) d.2 rIdx fuel
    else if st.start_requested then
      AwaitRes.success { st with start_requested := false } d.2 rIdx
    else
      match await_i_loop env st d.2 rIdx 0 with
      | AwaitInner.success st d r => AwaitRes.success st d r
      | AwaitInner.restart st d r => await_start env st d r fuel
      | AwaitInner.rowDone st d r => await_start env st d r fuel

/-- One iteration of the `game_task` loop: drain, `await_start`, drain,
`game_run`, drain, then either skip the 2 s delay (when
`reset_abort_session` is set) or perform it. Returns `none` when a fuel
bound was hit, otherwise the final state, cursors, the session's emitted
events, and whether the `MS_SLEEP(2000)` delay was performed. -/
def game_task_iter (st : GameSt) (env : GameEnv)
    (dIdx rIdx awaitFuel runFuel : Nat) :
    Option (GameSt × Nat × Nat × List GameEvent × Bool) :=
  let d0 := drain_cmd_queue st env dIdx
  match await_start env d0.1 d0.2 rIdx awaitFuel with
  | AwaitRes.fuelOut _ _ _ => none
  | AwaitRes.success st dIdx rIdx =>
    let d1 := drain_cmd_queue st env dIdx
    let k := game_run d1.1 env d1.2 rIdx runFuel
    if k.2 = RunExit.fuelOut then none
    else
      let d2 := drain_cmd_queue k.1.st env k.1.dIdx
      let st := d2.1
      if st.reset_abort_session then
        some ({ st with reset_abort_session := false }, d2.2, k.1.rIdx, k.1.out, false)
      else some (st, d2.2, k.1.rIdx, k.1.out, true)

/-- Environment of the C2/C7 failing run: `S` at the first `await_start`
drain, then `R` at the first in-level drain of the session. -/
def c2Env : GameEnv :=
  { cmds := fun k =>
      if k = 1 then [⟨CmdType.start, 0⟩]
      else if k = 4 then [⟨CmdType.reset, 0⟩] else [],
    reads := fun _ => BTN_HW_STATE }

/-! ### Event-list bookkeeping for the lives and session-end analysis -/

/-- Number of non-`Hit` pop results in an event list (each of which
decrements `lives` by one). -/
def nonHitCount : List GameEvent → Nat
  | [] => 0
  | GameEvent.popResult p :: rest =>
    (if p.outcome = PopOutcome.hit then 0 else 1) + nonHitCount rest
  | _ :: rest => nonHitCount rest

/-- `LivesChain l xs`: starting from `l` lives, every `PopResult` in `xs`
carries the running lives value — unchanged on `Hit`, one less on
`Miss`/`Late`. -/
def LivesChain : Nat → List GameEvent → Prop
  | _, [] => True
  | l, GameEvent.popResult p :: rest =>
    p.lives = (if p.outcome = PopOutcome.hit then l else l - 1) ∧
      LivesChain (if p.outcome = PopOutcome.hit then l else l - 1) rest
  | l, _ :: rest => LivesChain l rest

/-- No `SessionEnd` event occurs in the list. -/
def SessionEndFree (xs : List GameEvent) : Prop :=
  ∀ b : Bool, GameEvent.sessionEnd b ∉ xs

/-- Environment of the C7 witness run: a reset at the first in-level
cooperative checkpoint of the session. -/
def c7Env : GameEnv :=
  { cmds := fun k => if k = 1 then [⟨CmdType.reset, 0⟩] else [],
    reads := fun _ => BTN_HW_STATE }

/-- Environment of the C6 counterexample/witness run: a reset at the
post-delay cooperative checkpoint of the first pop. -/
def c6Env : GameEnv :=
  { cmds := fun k => if k = 2 then [⟨CmdType.reset, 0⟩] else [],
    reads := fun _ => BTN_HW_STATE }

/-! ## Theorems -/

/-! ### Ring buffer lemmas -/

theorem bufContents_length (s : EventRingBuffer) : (bufContents s).length = s.count := by
  simp [bufContents]

theorem bufInv_init : BufInv event_buffer_init := by
  refine ⟨?_, ?_, ?_⟩ <;> simp [event_buffer_init, EVENT_BUFFER_SIZE]

theorem bufInv_push (s : EventRingBuffer) (e : GameEvent) (h : BufInv s) :
    BufInv (event_buffer_push s e) := by
  obtain ⟨h1, h2, h3⟩ := h
  have hE : EVENT_BUFFER_SIZE = 100 := rfl
  rw [hE] at h1 h2 h3
  unfold event_buffer_push BufInv
  simp only [hE]
  split
  next hc =>
    refine ⟨h1, by show s.count + 1 ≤ 100; omega, ?_⟩
    show (s.head + 1) % 100 = (s.tail + (s.count + 1)) % 100
    rw [h3]; omega
  next hc =>
    refine ⟨by show (s.tail + 1) % 100 < 100; omega, h2, ?_⟩
    show (s.head + 1) % 100 = ((s.tail + 1) % 100 + s.count) % 100
    rw [h3]; omega

theorem bufContents_push (s : EventRingBuffer) (e : GameEvent) (h : BufInv s) :
    bufContents (event_buffer_push s e) = modelPush (bufContents s) e := by
  obtain ⟨h1, h2, h3⟩ := h
  have hE : EVENT_BUFFER_SIZE = 100 := rfl
  rw [hE] at h1 h2 h3
  by_cases hc : s.count < EVENT_BUFFER_SIZE
  · -- not yet full: append at the free slot
    have hc' : s.count < 100 := by rw [hE] at hc; exact hc
    unfold event_buffer_push
    rw [if_pos hc]
    unfold modelPush
    rw [bufContents_length, if_pos hc]
    simp only [bufContents, hE, List.range_succ, List.map_append, List.map_cons,
      List.map_nil]
    congr 1
    · refine List.map_congr_left (fun i hi => ?_)
      rw [List.mem_range] at hi
      have : ¬ ((s.tail + i) % 100 = s.head) := by rw [h3]; omega
      simp only [this, if_false]
    · have : (s.tail + s.count) % 100 = s.head := h3.symm
      simp [this]
  · -- full: overwrite the oldest entry
    have hc100 : s.count = 100 := by rw [hE] at hc; omega
    have htail : s.head = s.tail := by rw [h3, hc100]; omega
    have hidx : ∀ i, ((s.tail + 1) % 100 + i) % 100 = (s.tail + (i + 1)) % 100 := by
      intro i; omega
    have hLHS : bufContents (event_buffer_push s e) =
        (List.range 99).map (fun i => s.events ((s.tail + (i + 1)) % 100)) ++ [e] := by
      unfold event_buffer_push
      rw [if_neg hc]
      simp only [bufContents, hE, hc100]
      rw [show (100 : Nat) = 99 + 1 from rfl, List.range_succ, List.map_append]
      congr 1
      · refine List.map_congr_left (fun i hi => ?_)
        rw [List.mem_range] at hi
        rw [hidx i]
        have hne : ¬ ((s.tail + (i + 1)) % 100 = s.head) := by rw [htail]; omega
        simp only [hne, if_false]
      · simp only [List.map_cons, List.map_nil]
        rw [hidx 99]
        have : (s.tail + (99 + 1)) % 100 = s.head := by rw [htail]; omega
        simp [this]
    have hRHS : (bufContents s).tail =
        (List.range 99).map (fun i => s.events ((s.tail + (i + 1)) % 100)) := by
      simp only [bufContents, hc100, hE]
      rw [show (100 : Nat) = 99 + 1 from rfl, List.range_succ_eq_map]
      simp only [List.map_cons, List.tail_cons, List.map_map]
      refine List.map_congr_left (fun i hi => ?_)
      simp [Nat.succ_eq_add_one]
    unfold modelPush
    rw [bufContents_length, if_neg (by rw [hc100, hE]; omega), hLHS, hRHS]

theorem event_buffer_pop_eq (s : EventRingBuffer) (hc : s.count ≠ 0) :
    event_buffer_pop s = some (s.events s.tail, popNext s) := by
  unfold event_buffer_pop popNext
  rw [if_neg hc]

theorem bufInv_popNext (s : EventRingBuffer) (h : BufInv s) (hc : s.count ≠ 0) :
    BufInv (popNext s) := by
  obtain ⟨h1, h2, h3⟩ := h
  have hE : EVENT_BUFFER_SIZE = 100 := rfl
  rw [hE] at h1 h2 h3
  refine ⟨by simp [popNext, hE]; omega, by simp [popNext, hE]; omega, ?_⟩
  simp only [popNext, hE]
  rw [h3]
  omega

theorem bufContents_popNext (s : EventRingBuffer) (h : BufInv s) (hc : s.count ≠ 0) :
    bufContents s = s.events s.tail :: bufContents (popNext s) := by
  obtain ⟨h1, h2, h3⟩ := h
  have hE : EVENT_BUFFER_SIZE = 100 := rfl
  rw [hE] at h1 h2 h3
  simp only [bufContents, popNext, hE]
  rw [show s.count = (s.count - 1) + 1 by omega, List.range_succ_eq_map]
  simp only [List.map_cons, List.map_map]
  congr 1
  · rw [show s.tail + 0 = s.tail by omega, Nat.mod_eq_of_lt h1]
  · refine List.map_congr_left (fun i hi => ?_)
    simp only [Function.comp_apply, Nat.succ_eq_add_one]
    congr 1
    conv_lhs => rw [show s.tail + (i + 1) = (s.tail + 1) + i by omega]
    omega

theorem event_buffer_flush_fst (s : EventRingBuffer) (h : BufInv s) :
    (event_buffer_flush s).1 = bufContents s := by
  generalize hn : s.count = n
  induction n generalizing s with
  | zero =>
    unfold event_buffer_flush
    rw [dif_pos hn]
    simp [bufContents, hn]
  | succ n ih =>
    have hc : s.count ≠ 0 := by omega
    unfold event_buffer_flush
    rw [dif_neg hc]
    simp only
    rw [bufContents_popNext s h hc]
    have hinv' := bufInv_popNext s h hc
    have hn' : (popNext s).count = n := by simp [popNext, hn]
    rw [← ih (popNext s) hinv' hn']
    rfl

/-- One step of `runBufOps` refines one step of the list model. -/
theorem runBufOps_refines (ops : List BufOp) :
    BufInv (runBufOps ops) ∧ bufContents (runBufOps ops) = modelRunOps ops := by
  suffices h : ∀ (ops : List BufOp) (s : EventRingBuffer), BufInv s →
      BufInv (ops.foldl
        (fun s op => match op with
          | BufOp.push e => event_buffer_push s e
          | BufOp.pop => match event_buffer_pop s with
            | none => s
            | some (_, s') => s') s) ∧
      bufContents (ops.foldl
        (fun s op => match op with
          | BufOp.push e => event_buffer_push s e
          | BufOp.pop => match event_buffer_pop s with
            | none => s
            | some (_, s') => s') s) =
      ops.foldl
        (fun l op => match op with
          | BufOp.push e => modelPush l e
          | BufOp.pop => l.tail) (bufContents s) by
    have := h ops event_buffer_init bufInv_init
    refine ⟨this.1, ?_⟩
    rw [runBufOps, modelRunOps, this.2]
    congr 1
  intro ops
  induction ops with
  | nil => intro s hs; exact ⟨hs, rfl⟩
  | cons op rest ih =>
    intro s hs
    simp only [List.foldl_cons]
    cases op with
    | push e =>
      have := ih (event_buffer_push s e) (bufInv_push s e hs)
      refine ⟨this.1, ?_⟩
      rw [this.2, bufContents_push s e hs]
    | pop =>
      by_cases hc : s.count = 0
      · have hpop : event_buffer_pop s = none := by unfold event_buffer_pop; rw [if_pos hc]
        have hnil : bufContents s = [] := by simp [bufContents, hc]
        simp only [hpop]
        have := ih s hs
        refine ⟨this.1, ?_⟩
        rw [this.2, hnil]
        rfl
      · rw [event_buffer_pop_eq s hc]
        have := ih (popNext s) (bufInv_popNext s hs hc)
        refine ⟨this.1, ?_⟩
        rw [this.2, bufContents_popNext s hs hc]
        rfl

/-- Pushing a whole list keeps exactly the last `EVENT_BUFFER_SIZE` entries
(all of them when there are at most `EVENT_BUFFER_SIZE`). -/
theorem modelRunOps_pushes (L : List GameEvent) :
    modelRunOps (L.map BufOp.push) = L.drop (L.length - EVENT_BUFFER_SIZE) := by
  have hE : EVENT_BUFFER_SIZE = 100 := rfl
  induction L using List.reverseRecOn with
  | nil => simp [modelRunOps]
  | append_singleton L e ih =>
    have hstep : modelRunOps ((L ++ [e]).map BufOp.push) =
        modelPush (modelRunOps (L.map BufOp.push)) e := by
      simp [modelRunOps, List.foldl_append]
    rw [hstep, ih]
    unfold modelPush
    have hlen : (L.drop (L.length - EVENT_BUFFER_SIZE)).length =
        L.length - (L.length - EVENT_BUFFER_SIZE) := by
      rw [List.length_drop]
    by_cases hsmall : L.length < EVENT_BUFFER_SIZE
    · rw [if_pos (by rw [hlen]; rw [hE] at hsmall ⊢; omega)]
      rw [hE] at hsmall ⊢
      rw [show L.length - 100 = 0 by omega, show (L ++ [e]).length - 100 = 0 by
        simp; omega]
      simp
    · rw [if_neg (by rw [hlen]; rw [hE] at hsmall ⊢; omega)]
      rw [List.tail_drop]
      rw [hE] at hsmall ⊢
      have h1 : (L ++ [e]).length - 100 = L.length - 100 + 1 := by simp; omega
      rw [h1, List.drop_append_of_le_length (by omega)]

/-- C3: the ring buffer (capacity 100) satisfies, after every sequence of
push and pop operations: `count` never exceeds the capacity; a push onto a
full buffer evicts exactly the oldest entry and pops return the surviving
entries in FIFO push order (the contents always equal the evict-oldest
list model `modelRunOps`, and `event_buffer_flush` delivers exactly that
list in order); and after pushing `N` events from empty, flush delivers
all `N` when `N ≤ 100` and exactly the last 100 when `N > 100`. -/
theorem c3_ring_buffer_fifo_bounded :
    (∀ ops : List BufOp,
        (runBufOps ops).count ≤ EVENT_BUFFER_SIZE ∧
        bufContents (runBufOps ops) = modelRunOps ops ∧
        (event_buffer_flush (runBufOps ops)).1 = modelRunOps ops) ∧
    (∀ L : List GameEvent,
        (event_buffer_flush (runBufOps (L.map BufOp.push))).1 =
          L.drop (L.length - EVENT_BUFFER_SIZE)) := by
  constructor
  · intro ops
    obtain ⟨hinv, hcont⟩ := runBufOps_refines ops
    exact ⟨hinv.2.1, hcont, by rw [event_buffer_flush_fst _ hinv, hcont]⟩
  · intro L
    obtain ⟨hinv, hcont⟩ := runBufOps_refines (L.map BufOp.push)
    rw [event_buffer_flush_fst _ hinv, hcont, modelRunOps_pushes]

/-- C5 (counterexample): the pop-duration table of the superseded revision
`src/emb/src/game.c` has 250, not 275, at level index 7, so the claim that
the table used by the game equals `{1500, 1250, 1000, 750, 600, 500, 350,
275}` is false of that table. -/
theorem c5_legacy_table_differs :
    POP_DURATIONS_legacy.getD 7 0 = 250 ∧ POP_DURATIONS_legacy ≠ POP_DURATIONS := by
  decide

/-- C5 (amended): the tuning values of the game-task revision of `game.c`
(the one that emits telemetry events) are exactly the canonical ones:
pop durations `{1500, 1250, 1000, 750, 600, 500, 350, 275}` for level
indices 0..7, `LIVES = 5`, `LVLS = 8` levels of 10 pops each. -/
theorem c5_current_tuning_values :
    POP_DURATIONS = [1500, 1250, 1000, 750, 600, 500, 350, 275] ∧
    POP_DURATIONS.length = 8 ∧ LIVES = 5 ∧ LVLS = 8 ∧
    POPS_PER_LVL.length = 8 ∧ ∀ p ∈ POPS_PER_LVL, p = 10 := by
  decide

/-- C1 (code behaviour at the failing input): with one event buffered
offline and an identify request pending, the iteration sends the buffered
event frame **first** and the identify frame after it — the identify frame
does not precede the flushed event, contrary to the claim (and to
`test.md` / `test-buffering.md`, which document identify-first). -/
theorem c1_flush_precedes_identify :
    (agent_iter
      { agent_connected := false, last_command_tick := 0,
        identify_requested := true,
        buffer := event_buffer_push event_buffer_init GameEvent.sessionStart }
      0 [] true).2 =
      [Frame.event GameEvent.sessionStart, Frame.identify] := by
  have hbuf : BufInv (event_buffer_push event_buffer_init GameEvent.sessionStart) :=
    bufInv_push _ _ bufInv_init
  have hfl := event_buffer_flush_fst _ hbuf
  have hcont : bufContents (event_buffer_push event_buffer_init GameEvent.sessionStart) =
      [GameEvent.sessionStart] := by decide
  show (event_buffer_flush
      (event_buffer_push event_buffer_init GameEvent.sessionStart)).1.map Frame.event ++
      [Frame.identify] = [Frame.event GameEvent.sessionStart, Frame.identify]
  rw [hfl, hcont]
  rfl

/-- C9: on a telemetry-task iteration with no identify pending, if the
agent is connected and more than `AGENT_TIMEOUT_MS` ticks have passed
since `last_command_tick`, the task marks the agent disconnected, sends
nothing, and pushes every event dequeued from the event queue into the
ring buffer instead of transmitting it. -/
theorem c9_timeout_buffers_events (s : AgentSt) (now : Nat)
    (incoming : List GameEvent) (devid_ok : Bool)
    (hconn : s.agent_connected = true)
    (htimeout : now - s.last_command_tick > AGENT_TIMEOUT_MS)
    (hident : s.identify_requested = false) :
    (agent_iter s now incoming devid_ok).1.agent_connected = false ∧
    (agent_iter s now incoming devid_ok).2 = [] ∧
    (agent_iter s now incoming devid_ok).1.buffer =
      incoming.foldl event_buffer_push s.buffer := by
  unfold agent_iter
  rw [if_pos (by rw [hconn]; exact ⟨rfl, htimeout⟩)]
  simp only [hident, Bool.false_eq_true, if_false]
  -- after the timeout step the agent is offline and stays offline:
  -- every drained event goes to the ring buffer
  suffices h : ∀ (evs : List GameEvent) (t : AgentSt) (fs : List Frame),
      t.agent_connected = false →
      (evs.foldl
        (fun acc e =>
          if acc.1.agent_connected then (acc.1, acc.2 ++ [Frame.event e])
          else ({ acc.1 with buffer := event_buffer_push acc.1.buffer e }, acc.2))
        (t, fs)).1.agent_connected = false ∧
      (evs.foldl
        (fun acc e =>
          if acc.1.agent_connected then (acc.1, acc.2 ++ [Frame.event e])
          else ({ acc.1 with buffer := event_buffer_push acc.1.buffer e }, acc.2))
        (t, fs)).2 = fs ∧
      (evs.foldl
        (fun acc e =>
          if acc.1.agent_connected then (acc.1, acc.2 ++ [Frame.event e])
          else ({ acc.1 with buffer := event_buffer_push acc.1.buffer e }, acc.2))
        (t, fs)).1.buffer = evs.foldl event_buffer_push t.buffer by
    exact h incoming _ [] rfl
  intro evs
  induction evs with
  | nil => intro t fs ht; exact ⟨ht, rfl, rfl⟩
  | cons e rest ih =>
    intro t fs ht
    simp only [List.foldl_cons, ht, Bool.false_eq_true, if_false]
    exact ih _ fs rfl

/-- C9 witness: a concrete timed-out iteration. -/
theorem c9_timeout_buffers_events_witness :
    (agent_iter
      { agent_connected := true, last_command_tick := 0,
        identify_requested := false, buffer := event_buffer_init }
      70000 [GameEvent.sessionStart] true).2 = [] :=
  (c9_timeout_buffers_events _ 70000 [GameEvent.sessionStart] true rfl
    (by decide) rfl).2.1

/-- C8: per-byte semantics of the command dispatcher — `P` notifies the
pause task; `R`/`S` enqueue Reset/Start; `'1'..'8'` enqueue
`SetLevel (byte − '0')`; `I` sets `identify_requested`; `D` clears
`agent_connected`; any other byte changes no command state; and
`last_command_tick` is refreshed for every byte except `D`, including
unrecognised ones. -/
theorem c8_dispatcher_byte_semantics (s : DispatchSt) (now : Nat) (c : Char) :
    (uart_process_byte s now c).last_command_tick =
      (if c = 'D' then s.last_command_tick else now) ∧
    (uart_process_byte s now c).pause_notified =
      (if c = 'P' then true else s.pause_notified) ∧
    (uart_process_byte s now c).agent_connected =
      (if c = 'D' then false else s.agent_connected) ∧
    (uart_process_byte s now c).identify_requested =
      (if c = 'I' then true else s.identify_requested) ∧
    (uart_process_byte s now c).cmd_queue =
      (if c = 'R' then cmd_queue_send s.cmd_queue ⟨CmdType.reset, 0⟩
       else if c = 'S' then cmd_queue_send s.cmd_queue ⟨CmdType.start, 0⟩
       else if '1' ≤ c ∧ c ≤ '8' then
         cmd_queue_send s.cmd_queue ⟨CmdType.setLevel, c.toNat - '0'.toNat⟩
       else s.cmd_queue) := by
  unfold uart_process_byte
  by_cases hP : c = 'P'
  · subst hP; simp
  · by_cases hD : c = 'D'
    · subst hD; simp
    · by_cases hR : c = 'R'
      · subst hR; simp
      · by_cases hS : c = 'S'
        · subst hS; simp
        · by_cases hL : '1' ≤ c ∧ c ≤ '8'
          · have h1 : c ≠ 'P' := hP
            have h2 : c ≠ 'I' := by
              rintro rfl
              revert hL
              decide
            simp only [hD, hP, hR, hS, hL, h2, if_true, if_false, ite_true,
              ite_false, if_neg, ne_eq, not_false_iff]
            simp [hD, hP, hR, hS, hL, h2]
          · by_cases hI : c = 'I'
            · subst hI; simp
            · simp [hD, hP, hR, hS, hL, hI]

/-! ### C10: session determinism from the fixed RNG reseed -/

/-- C10: `game_run` reseeds the RNG to `RNG_INIT_STATE = 0xDEADBEEF` and
resets `lives`, so two executions of `game_run` that receive no commands
and observe the same button reads emit identical event sequences, however
the incoming `lives` and `rng_state` differ — every session uses the same
sequence of target moles and inter-pop delays. -/
theorem c10_session_determinism (s1 s2 : GameSt) (env : GameEnv)
    (dIdx rIdx fuel : Nat)
    (hcmds : ∀ k, env.cmds k = [])
    (h1 : s1.requested_level_idx = s2.requested_level_idx)
    (h2 : s1.level_change_pending = s2.level_change_pending)
    (h3 : s1.reset_requested = s2.reset_requested)
    (h4 : s1.start_requested = s2.start_requested)
    (h5 : s1.reset_abort_session = s2.reset_abort_session) :
    game_run s1 env dIdx rIdx fuel = game_run s2 env dIdx rIdx fuel := by
  have hst : ({ s1 with lives := LIVES, rng_state := RNG_INIT_STATE } : GameSt) =
      { s2 with lives := LIVES, rng_state := RNG_INIT_STATE } := by
    cases s1; cases s2
    simp_all
  unfold game_run
  rw [hst]

/-- C10 witness: concrete states differing only in `lives`/`rng_state`. -/
theorem c10_session_determinism_witness :
    game_run ⟨3, 123, 0, false, false, false, false⟩
      ⟨fun _ => [], fun _ => BTN_HW_STATE⟩ 0 0 1 =
    game_run ⟨5, 99999, 0, false, false, false, false⟩
      ⟨fun _ => [], fun _ => BTN_HW_STATE⟩ 0 0 1 :=
  c10_session_determinism _ _ _ 0 0 1 (fun _ => rfl) rfl rfl rfl rfl rfl

/-! ### C4: reaction-time bounds -/

/-- The polling loop preserves: starting from a multiple of 5, a press
exit reports a multiple-of-5 `reaction_ms` below the duration, and a
timeout exit reports exactly the duration. -/
theorem pop_poll_reaction (reads : Nat → Nat) (target duration : Nat) :
    ∀ (fuel elapsed rIdx : Nat), 5 ∣ elapsed →
      ((pop_poll reads target duration fuel elapsed rIdx).1 = PopOutcome.late →
        (pop_poll reads target duration fuel elapsed rIdx).2.1 = duration) ∧
      ((pop_poll reads target duration fuel elapsed rIdx).1 ≠ PopOutcome.late →
        5 ∣ (pop_poll reads target duration fuel elapsed rIdx).2.1 ∧
        (pop_poll reads target duration fuel elapsed rIdx).2.1 ≤ duration) := by
  intro fuel
  induction fuel with
  | zero =>
    intro elapsed rIdx hdvd
    exact ⟨fun _ => rfl, fun hne => absurd rfl hne⟩
  | succ fuel ih =>
    intro elapsed rIdx hdvd
    by_cases hlt : elapsed < duration
    · show _ ∧ _
      unfold pop_poll
      rw [if_pos hlt]
      by_cases hb : reads rIdx ≠ BTN_HW_STATE
      · rw [if_pos hb]
        constructor
        · intro hlate
          by_cases hp : is_btn_pressed target (reads rIdx) <;>
            simp [hp] at hlate
        · intro _
          exact ⟨hdvd, Nat.le_of_lt hlt⟩
      · rw [if_neg hb]
        exact ih (elapsed + 5) (rIdx + 1) (by omega)
    · show _ ∧ _
      unfold pop_poll
      rw [if_neg hlt]
      exact ⟨fun _ => rfl, fun hne => absurd rfl hne⟩

/-- C4: for every pop executed by `pop_do`, a `Hit` outcome carries a
`reaction_ms` that is a non-negative multiple of 5 and at most the
level's entry in `POP_DURATIONS`, and a `Late` outcome carries
`reaction_ms` equal to that entry exactly. -/
theorem c4_reaction_time_bounds (lvl_idx rng rIdx : Nat) (reads : Nat → Nat) :
    ((pop_do lvl_idx rng reads rIdx).1 = PopOutcome.hit →
      5 ∣ (pop_do lvl_idx rng reads rIdx).2.2.1 ∧
      (pop_do lvl_idx rng reads rIdx).2.2.1 ≤ POP_DURATIONS.getD lvl_idx 0) ∧
    ((pop_do lvl_idx rng reads rIdx).1 = PopOutcome.late →
      (pop_do lvl_idx rng reads rIdx).2.2.1 = POP_DURATIONS.getD lvl_idx 0) := by
  have h := pop_poll_reaction reads (next_rand rng % LED_COUNT)
    (POP_DURATIONS.getD lvl_idx 0) (POP_DURATIONS.getD lvl_idx 0) 0
    (pop_debounce reads 6 rIdx 0) (by omega)
  constructor
  · intro hhit
    have hhit' : (pop_poll reads (next_rand rng % LED_COUNT)
        (POP_DURATIONS.getD lvl_idx 0) (POP_DURATIONS.getD lvl_idx 0) 0
        (pop_debounce reads 6 rIdx 0)).1 = PopOutcome.hit := hhit
    exact h.2 (by rw [hhit']; simp)
  · intro hlate
    exact h.1 hlate

/-! ### Command-drain preservation lemmas -/

theorem drain_cmd_step_abort (st : GameSt) (cmd : CmdMsg) :
    (drain_cmd_step st cmd).reset_abort_session = st.reset_abort_session := by
  unfold drain_cmd_step
  cases cmd.type
  · dsimp only
    split <;> rfl
  · rfl
  · rfl

theorem drain_cmd_step_lives (st : GameSt) (cmd : CmdMsg) :
    (drain_cmd_step st cmd).lives = st.lives := by
  unfold drain_cmd_step
  cases cmd.type
  · dsimp only
    split <;> rfl
  · rfl
  · rfl

theorem drain_foldl_abort (cmds : List CmdMsg) :
    ∀ st : GameSt,
      (cmds.foldl drain_cmd_step st).reset_abort_session = st.reset_abort_session := by
  induction cmds with
  | nil => intro st; rfl
  | cons c rest ih =>
    intro st
    rw [List.foldl_cons, ih, drain_cmd_step_abort]

theorem drain_foldl_lives (cmds : List CmdMsg) :
    ∀ st : GameSt, (cmds.foldl drain_cmd_step st).lives = st.lives := by
  induction cmds with
  | nil => intro st; rfl
  | cons c rest ih =>
    intro st
    rw [List.foldl_cons, ih, drain_cmd_step_lives]

theorem drain_abort (st : GameSt) (env : GameEnv) (dIdx : Nat) :
    (drain_cmd_queue st env dIdx).1.reset_abort_session = st.reset_abort_session :=
  drain_foldl_abort _ st

theorem drain_lives (st : GameSt) (env : GameEnv) (dIdx : Nat) :
    (drain_cmd_queue st env dIdx).1.lives = st.lives :=
  drain_foldl_lives _ st

theorem requested_level_lt (st : GameSt) : requested_level_or_default st < LVLS := by
  unfold requested_level_or_default LVLS
  split
  · omega
  · omega

/-! ### C2: the post-session delay is never skipped

`game_run` clears `reset_abort_session` on every return path, so the
`game_task` check that is meant to skip the 2 s delay after a
reset-aborted session never fires. -/

/-- Every non-fuel-out pass of the level loop of `game_run` ends with
`reset_abort_session` cleared. -/
theorem game_run_loop_abort (env : GameEnv) :
    ∀ (fuel lvl : Nat) (st : GameSt) (dIdx rIdx : Nat),
      lvl < LVLS ∨ st.reset_abort_session = false →
      (game_run_loop env fuel lvl st dIdx rIdx).2 = RunExit.fuelOut ∨
      (game_run_loop env fuel lvl st dIdx rIdx).1.st.reset_abort_session = false := by
  intro fuel
  induction fuel with
  | zero => intro lvl st dIdx rIdx _; left; rfl
  | succ fuel ih =>
    intro lvl st dIdx rIdx hpre
    simp only [game_run_loop]
    by_cases hlvl : lvl < LVLS
    · rw [if_pos hlvl]
      set r : GameOut := game_run_level lvl (POPS_PER_LVL.getD lvl 0) st env dIdx rIdx
        with hrdef
      by_cases ha : r.st.reset_abort_session = true
      · rw [if_pos ha]; right; rfl
      · rw [if_neg ha]
        simp only [Bool.not_eq_true] at ha
        by_cases hl0 : r.st.lives = 0
        · rw [if_pos hl0]; right; exact ha
        · rw [if_neg hl0]
          by_cases hr : (drain_cmd_queue r.st env r.dIdx).1.reset_requested = true
          · rw [if_pos hr]; right; rfl
          · rw [if_neg hr]
            have habort' : (drain_cmd_queue r.st env r.dIdx).1.reset_abort_session = false := by
              rw [drain_abort]; exact ha
            by_cases hp : (drain_cmd_queue r.st env r.dIdx).1.level_change_pending = true
            · rw [if_pos hp]
              by_cases ht : requested_level_or_default (drain_cmd_queue r.st env r.dIdx).1 ≠ lvl
              · rw [if_pos ht]
                exact ih _ _ _ _ (Or.inr habort')
              · rw [if_neg ht]
                exact ih _ _ _ _ (Or.inr habort')
            · rw [if_neg hp]
              exact ih _ _ _ _ (Or.inr habort')
    · rw [if_neg hlvl]
      have habort : st.reset_abort_session = false := hpre.resolve_left hlvl
      by_cases hr : st.reset_requested = true
      · rw [if_pos hr]; right; rfl
      · rw [if_neg hr]; right; exact habort

/-- `game_run` always returns with `reset_abort_session = false` (unless
the model ran out of fuel). -/
theorem game_run_abort_false (st : GameSt) (env : GameEnv) (dIdx rIdx fuel : Nat)
    (hne : (game_run st env dIdx rIdx fuel).2 ≠ RunExit.fuelOut) :
    (game_run st env dIdx rIdx fuel).1.st.reset_abort_session = false := by
  simp only [game_run] at hne ⊢
  by_cases hr : (drain_cmd_queue
      { st with lives := LIVES, rng_state := RNG_INIT_STATE } env dIdx).1.reset_requested = true
  · rw [if_pos hr]; rfl
  · rw [if_neg hr] at hne ⊢
    rcases game_run_loop_abort env fuel
        (requested_level_or_default (drain_cmd_queue
          { st with lives := LIVES, rng_state := RNG_INIT_STATE } env dIdx).1)
        { (drain_cmd_queue { st with lives := LIVES, rng_state := RNG_INIT_STATE }
            env dIdx).1 with level_change_pending := false, start_requested := false }
        (drain_cmd_queue { st with lives := LIVES, rng_state := RNG_INIT_STATE }
          env dIdx).2 rIdx
        (Or.inl (requested_level_lt _)) with hf | hok
    · exact absurd hf hne
    · exact hok

/-- C2: contrary to the claim, a reset-aborted session does **not** skip
the post-session 2 s delay: every completed `game_task` iteration
performs the `MS_SLEEP(2000)` (the skip branch is dead because `game_run`
clears `reset_abort_session` before returning), and in particular the
concrete reset-aborted session below emits `SessionEnd{won=false}` and
still delays. -/
theorem c2_reset_abort_session_delay_not_skipped :
    (∀ (st : GameSt) (env : GameEnv) (dIdx rIdx awaitFuel runFuel : Nat)
        (res : GameSt × Nat × Nat × List GameEvent × Bool),
        game_task_iter st env dIdx rIdx awaitFuel runFuel = some res →
        res.2.2.2.2 = true) ∧
    game_task_iter game_static_init c2Env 0 0 1 1 =
      some (⟨LIVES, RNG_INIT_STATE, 0, false, false, false, false⟩, 6, 0,
        [GameEvent.sessionStart, GameEvent.sessionEnd false], true) := by
  constructor
  · intro st env dIdx rIdx awaitFuel runFuel res hsome
    simp only [game_task_iter] at hsome
    rcases hA : await_start env (drain_cmd_queue st env dIdx).1
        (drain_cmd_queue st env dIdx).2 rIdx awaitFuel with ⟨st', d', r'⟩ | ⟨st', d', r'⟩
    · rw [hA] at hsome
      simp only at hsome
      by_cases hf : (game_run (drain_cmd_queue st' env d').1 env
          (drain_cmd_queue st' env d').2 r' runFuel).2 = RunExit.fuelOut
      · rw [if_pos hf] at hsome
        exact Option.noConfusion hsome
      · rw [if_neg hf] at hsome
        have habort : (drain_cmd_queue
            (game_run (drain_cmd_queue st' env d').1 env
              (drain_cmd_queue st' env d').2 r' runFuel).1.st env
            (game_run (drain_cmd_queue st' env d').1 env
              (drain_cmd_queue st' env d').2 r' runFuel).1.dIdx).1.reset_abort_session =
            false := by
          rw [drain_abort]
          exact game_run_abort_false _ env _ _ _ hf
        rw [if_neg (by rw [habort]; exact Bool.false_ne_true)] at hsome
        have := congrArg (fun o => o.map (fun x => x.2.2.2.2)) hsome
        simpa using this.symm
    · rw [hA] at hsome
      exact Option.noConfusion hsome
  · rfl

/-- C2 witness: the concrete reset-aborted iteration, with the delay
performed. -/
theorem c2_reset_abort_session_delay_not_skipped_witness :
    game_task_iter game_static_init c2Env 0 0 1 1 =
      some (⟨LIVES, RNG_INIT_STATE, 0, false, false, false, false⟩, 6, 0,
        [GameEvent.sessionStart, GameEvent.sessionEnd false], true) ∧
    ((⟨LIVES, RNG_INIT_STATE, 0, false, false, false, false⟩, 6, 0,
        [GameEvent.sessionStart, GameEvent.sessionEnd false], true) :
      GameSt × Nat × Nat × List GameEvent × Bool).2.2.2.2 = true :=
  ⟨c2_reset_abort_session_delay_not_skipped.2,
    c2_reset_abort_session_delay_not_skipped.1 game_static_init c2Env 0 0 1 1 _
      c2_reset_abort_session_delay_not_skipped.2⟩

theorem nonHitCount_append (xs ys : List GameEvent) :
    nonHitCount (xs ++ ys) = nonHitCount xs + nonHitCount ys := by
  induction xs with
  | nil => simp [nonHitCount]
  | cons x rest ih =>
    cases x <;> simp [nonHitCount, ih] <;> omega

theorem livesChain_append (xs : List GameEvent) :
    ∀ (l : Nat) (ys : List GameEvent),
      LivesChain l (xs ++ ys) ↔
      LivesChain l xs ∧ LivesChain (l - nonHitCount xs) ys := by
  induction xs with
  | nil => intro l ys; simp [LivesChain, nonHitCount]
  | cons x rest ih =>
    intro l ys
    cases x with
    | popResult p =>
      have hv : (if p.outcome = PopOutcome.hit then l else l - 1) - nonHitCount rest
          = l - nonHitCount (GameEvent.popResult p :: rest) := by
        by_cases hp : p.outcome = PopOutcome.hit
        · simp [nonHitCount, hp]
        · simp only [nonHitCount, hp, if_false]
          omega
      constructor
      · rintro ⟨h1, h2⟩
        have h2' := (ih _ ys).mp h2
        exact ⟨⟨h1, h2'.1⟩, hv ▸ h2'.2⟩
      · rintro ⟨⟨h1, h2⟩, h3⟩
        exact ⟨h1, (ih _ ys).mpr ⟨h2, hv.symm ▸ h3⟩⟩
    | sessionStart => exact ih l ys
    | levelComplete lv => exact ih l ys
    | sessionEnd b => exact ih l ys

/-- If a chain starting from `l ≥ 1` lives loses at least `l` of them,
some `PopResult` in the list carries `lives = 0`. -/
theorem livesChain_zero_mem (xs : List GameEvent) :
    ∀ l : Nat, LivesChain l xs → l ≤ nonHitCount xs → 1 ≤ l →
      ∃ p : PopData, GameEvent.popResult p ∈ xs ∧ p.lives = 0 := by
  induction xs with
  | nil =>
    intro l _ hle h1
    simp [nonHitCount] at hle
    omega
  | cons x rest ih =>
    intro l hchain hle h1
    cases x with
    | popResult p =>
      by_cases hp : p.outcome = PopOutcome.hit
      · simp only [LivesChain, hp, if_true] at hchain
        simp only [nonHitCount, hp, if_true, Nat.zero_add] at hle
        obtain ⟨q, hq, hq0⟩ := ih l hchain.2 (by omega) h1
        exact ⟨q, List.mem_cons_of_mem _ hq, hq0⟩
      · simp only [LivesChain, hp, if_false] at hchain
        simp only [nonHitCount, hp, if_false] at hle
        by_cases hl1 : l = 1
        · exact ⟨p, List.mem_cons_self _ _, by rw [hchain.1, hl1]⟩
        · obtain ⟨q, hq, hq0⟩ := ih (l - 1) hchain.2 (by omega) (by omega)
          exact ⟨q, List.mem_cons_of_mem _ hq, hq0⟩
    | sessionStart =>
      simp only [LivesChain, nonHitCount] at hchain hle
      obtain ⟨q, hq, hq0⟩ := ih l hchain hle h1
      exact ⟨q, List.mem_cons_of_mem _ hq, hq0⟩
    | levelComplete lv =>
      simp only [LivesChain, nonHitCount] at hchain hle
      obtain ⟨q, hq, hq0⟩ := ih l hchain hle h1
      exact ⟨q, List.mem_cons_of_mem _ hq, hq0⟩
    | sessionEnd b =>
      simp only [LivesChain, nonHitCount] at hchain hle
      obtain ⟨q, hq, hq0⟩ := ih l hchain hle h1
      exact ⟨q, List.mem_cons_of_mem _ hq, hq0⟩

theorem sessionEndFree_nil : SessionEndFree ([] : List GameEvent) := by
  intro b hb
  exact absurd hb (List.not_mem_nil _)

theorem sessionEndFree_pop_cons (p : PopData) (xs : List GameEvent)
    (h : SessionEndFree xs) : SessionEndFree (GameEvent.popResult p :: xs) := by
  intro b hb
  rcases List.mem_cons.mp hb with h1 | h2
  · exact GameEvent.noConfusion h1
  · exact h b h2

theorem sessionEndFree_singleton_pop (p : PopData) :
    SessionEndFree [GameEvent.popResult p] :=
  sessionEndFree_pop_cons p [] sessionEndFree_nil

theorem sessionEndFree_singleton_lc (n : Nat) :
    SessionEndFree [GameEvent.levelComplete n] := by
  intro b hb
  rcases List.mem_cons.mp hb with h1 | h2
  · exact GameEvent.noConfusion h1
  · exact absurd h2 (List.not_mem_nil _)

theorem dec_u8_eq (l : Nat) (h1 : 1 ≤ l) (h2 : l ≤ 256) : dec_u8 l = l - 1 := by
  unfold dec_u8
  omega

/-- Behaviour of the pop loop of `game_run_level` with respect to lives
and session-end events: emitted pop results carry the running lives
value; at most `st.lives` non-hits are recorded; no `SessionEnd` is
emitted; when no reset aborted the level the final lives value is the
start value minus the recorded non-hits; and a `lives = 0` pop result
forces an immediate return with `lives = 0` and no abort flag. -/
theorem game_run_level_go_spec (env : GameEnv) (lvl_idx pops : Nat) :
    ∀ (remaining pop : Nat) (st : GameSt) (dIdx rIdx : Nat),
      st.reset_abort_session = false → 1 ≤ st.lives → st.lives ≤ 256 →
      ∀ r : GameOut, r = game_run_level_go env lvl_idx pops remaining pop st dIdx rIdx →
      LivesChain st.lives r.out ∧
      nonHitCount r.out ≤ st.lives ∧
      SessionEndFree r.out ∧
      (r.st.reset_abort_session = false →
        r.st.lives = st.lives - nonHitCount r.out) ∧
      ((∃ p : PopData, GameEvent.popResult p ∈ r.out ∧ p.lives = 0) →
        r.st.lives = 0 ∧ r.st.reset_abort_session = false) := by
  intro remaining
  induction remaining with
  | zero =>
    intro pop st dIdx rIdx h0 h1 h2 r hr
    subst hr
    refine ⟨trivial, by simp [nonHitCount], sessionEndFree_singleton_lc _, ?_, ?_⟩
    · intro _
      show st.lives = st.lives - nonHitCount [GameEvent.levelComplete (lvl_idx + 1)]
      simp [nonHitCount]
    · rintro ⟨p, hp, _⟩
      rcases List.mem_cons.mp hp with h1' | h2'
      · exact GameEvent.noConfusion h1'
      · exact absurd h2' (List.not_mem_nil _)
  | succ remaining ih =>
    intro pop st dIdx rIdx h0 h1 h2 r hr
    subst hr
    simp only [game_run_level_go]
    by_cases hrq1 : (drain_cmd_queue st env dIdx).1.reset_requested = true
    · rw [if_pos hrq1]
      refine ⟨trivial, by simp [nonHitCount], sessionEndFree_nil, ?_, ?_⟩
      · intro hab
        simp [apply_reset_state] at hab
      · rintro ⟨p, hp, _⟩
        exact absurd hp (List.not_mem_nil _)
    · rw [if_neg hrq1]
      by_cases hsw1 : should_switch_level lvl_idx (drain_cmd_queue st env dIdx).1 = true
      · rw [if_pos hsw1]
        have hlvs1 : (drain_cmd_queue st env dIdx).1.lives = st.lives :=
          drain_lives _ _ _
        refine ⟨trivial, by simp [nonHitCount], sessionEndFree_nil, ?_, ?_⟩
        · intro _
          show (drain_cmd_queue st env dIdx).1.lives =
            st.lives - nonHitCount []
          simp [nonHitCount, hlvs1]
        · rintro ⟨p, hp, _⟩
          exact absurd hp (List.not_mem_nil _)
      · rw [if_neg hsw1]
        set s1 : GameSt := (drain_cmd_queue st env dIdx).1 with hs1
        set d1 : Nat := (drain_cmd_queue st env dIdx).2 with hd1
        have habs1 : s1.reset_abort_session = false := by
          rw [hs1, drain_abort]; exact h0
        have hlvs1 : s1.lives = st.lives := by
          rw [hs1]; exact drain_lives _ _ _
        set s2 : GameSt := { s1 with rng_state := next_rand s1.rng_state } with hs2
        set s3 : GameSt := (drain_cmd_queue s2 env d1).1 with hs3
        set d3 : Nat := (drain_cmd_queue s2 env d1).2 with hd3
        have habs3 : s3.reset_abort_session = false := by
          rw [hs3, drain_abort, hs2]; exact habs1
        have hlvs3 : s3.lives = st.lives := by
          rw [hs3, drain_lives, hs2]; exact hlvs1
        by_cases hrq2 : s3.reset_requested = true
        · rw [if_pos hrq2]
          refine ⟨trivial, by simp [nonHitCount], sessionEndFree_nil, ?_, ?_⟩
          · intro hab
            simp [apply_reset_state] at hab
          · rintro ⟨p, hp, _⟩
            exact absurd hp (List.not_mem_nil _)
        · rw [if_neg hrq2]
          by_cases hsw2 : should_switch_level lvl_idx s3 = true
          · rw [if_pos hsw2]
            refine ⟨trivial, by simp [nonHitCount], sessionEndFree_nil, ?_, ?_⟩
            · intro _
              show s3.lives = st.lives - nonHitCount []
              simp [nonHitCount, hlvs3]
            · rintro ⟨p, hp, _⟩
              exact absurd hp (List.not_mem_nil _)
          · rw [if_neg hsw2]
            set pp := pop_do lvl_idx s3.rng_state env.reads rIdx with hpp
            set s4 : GameSt := { s3 with rng_state := pp.2.2.2.1 } with hs4
            have hlv4 : s4.lives = st.lives := by rw [hs4]; exact hlvs3
            have habs4 : s4.reset_abort_session = false := by rw [hs4]; exact habs3
            by_cases hhit : pp.1 = PopOutcome.hit
            · rw [if_pos hhit]
              rw [if_neg (show ¬(s4.reset_requested = true) by rw [hs4]; exact hrq2)]
              rw [if_neg (show ¬(should_switch_level lvl_idx s4 = true) by
                rw [hs4]; exact hsw2)]
              obtain ⟨ihc, ihn, ihf, ihl, ihz⟩ :=
                ih (pop + 1) s4 d3 pp.2.2.2.2 habs4
                  (by rw [hlv4]; exact h1) (by rw [hlv4]; exact h2) _ rfl
              have hnh : nonHitCount
                  (GameEvent.popResult
                    ⟨pp.2.1, pp.1, pp.2.2.1, s4.lives, lvl_idx + 1, pop + 1, pops⟩ ::
                    (game_run_level_go env lvl_idx pops remaining (pop + 1) s4 d3
                      pp.2.2.2.2).out) =
                  nonHitCount (game_run_level_go env lvl_idx pops remaining (pop + 1)
                    s4 d3 pp.2.2.2.2).out := by
                simp [nonHitCount, hhit]
              refine ⟨⟨?_, ?_⟩, ?_, ?_, ?_, ?_⟩
              · show s4.lives = if pp.1 = PopOutcome.hit then st.lives else st.lives - 1
                rw [if_pos hhit]; exact hlv4
              · show LivesChain (if pp.1 = PopOutcome.hit then st.lives else st.lives - 1)
                  (game_run_level_go env lvl_idx pops remaining (pop + 1) s4 d3
                    pp.2.2.2.2).out
                rw [if_pos hhit, ← hlv4]
                exact ihc
              · show nonHitCount (GameEvent.popResult _ ::
                  (game_run_level_go env lvl_idx pops remaining (pop + 1) s4 d3
                    pp.2.2.2.2).out) ≤ st.lives
                rw [hnh, ← hlv4]
                exact ihn
              · exact sessionEndFree_pop_cons _ _ ihf
              · intro hab
                show (game_run_level_go env lvl_idx pops remaining (pop + 1) s4 d3
                  pp.2.2.2.2).st.lives = st.lives - nonHitCount (GameEvent.popResult _ ::
                    (game_run_level_go env lvl_idx pops remaining (pop + 1) s4 d3
                      pp.2.2.2.2).out)
                rw [hnh, ← hlv4]
                exact ihl hab
              · rintro ⟨q, hq, hq0⟩
                rcases List.mem_cons.mp hq with heq | hmem
                · injection heq with h
                  subst h
                  have : s4.lives = 0 := hq0
                  omega
                · exact ihz ⟨q, hmem, hq0⟩
            · rw [if_neg hhit]
              set s5 : GameSt := { s4 with lives := dec_u8 s4.lives } with hs5
              have hdec : s5.lives = st.lives - 1 := by
                rw [hs5]
                show dec_u8 s4.lives = st.lives - 1
                rw [hlv4]
                exact dec_u8_eq st.lives h1 h2
              have habs5 : s5.reset_abort_session = false := by rw [hs5]; exact habs4
              by_cases hl0 : s5.lives = 0
              · rw [if_pos hl0]
                refine ⟨⟨?_, trivial⟩, ?_, sessionEndFree_singleton_pop _, ?_, ?_⟩
                · show s5.lives = if pp.1 = PopOutcome.hit then st.lives else st.lives - 1
                  rw [if_neg hhit]; exact hdec
                · show (if pp.1 = PopOutcome.hit then 0 else 1) + nonHitCount [] ≤ st.lives
                  rw [if_neg hhit]
                  simpa [nonHitCount] using h1
                · intro _
                  show s5.lives = st.lives - nonHitCount [GameEvent.popResult
                    ⟨pp.2.1, pp.1, pp.2.2.1, s5.lives, lvl_idx + 1, pop + 1, pops⟩]
                  have : nonHitCount [GameEvent.popResult
                      ⟨pp.2.1, pp.1, pp.2.2.1, s5.lives, lvl_idx + 1, pop + 1, pops⟩] = 1 := by
                    simp [nonHitCount, hhit]
                  rw [this, hdec]
                · intro _
                  exact ⟨hl0, habs5⟩
              · rw [if_neg hl0]
                rw [if_neg (show ¬(s5.reset_requested = true) by rw [hs5, hs4]; exact hrq2)]
                rw [if_neg (show ¬(should_switch_level lvl_idx s5 = true) by
                  rw [hs5, hs4]; exact hsw2)]
                obtain ⟨ihc, ihn, ihf, ihl, ihz⟩ :=
                  ih (pop + 1) s5 d3 pp.2.2.2.2 habs5
                    (by omega) (by omega) _ rfl
                have hnh : nonHitCount
                    (GameEvent.popResult
                      ⟨pp.2.1, pp.1, pp.2.2.1, s5.lives, lvl_idx + 1, pop + 1, pops⟩ ::
                      (game_run_level_go env lvl_idx pops remaining (pop + 1) s5 d3
                        pp.2.2.2.2).out) =
                    1 + nonHitCount (game_run_level_go env lvl_idx pops remaining (pop + 1)
                      s5 d3 pp.2.2.2.2).out := by
                  simp [nonHitCount, hhit]
                refine ⟨⟨?_, ?_⟩, ?_, ?_, ?_, ?_⟩
                · show s5.lives = if pp.1 = PopOutcome.hit then st.lives else st.lives - 1
                  rw [if_neg hhit]; exact hdec
                · show LivesChain (if pp.1 = PopOutcome.hit then st.lives else st.lives - 1)
                    (game_run_level_go env lvl_idx pops remaining (pop + 1) s5 d3
                      pp.2.2.2.2).out
                  rw [if_neg hhit, ← hdec]
                  exact ihc
                · show nonHitCount (GameEvent.popResult _ ::
                    (game_run_level_go env lvl_idx pops remaining (pop + 1) s5 d3
                      pp.2.2.2.2).out) ≤ st.lives
                  rw [hnh]
                  omega
                · exact sessionEndFree_pop_cons _ _ ihf
                · intro hab
                  show (game_run_level_go env lvl_idx pops remaining (pop + 1) s5 d3
                    pp.2.2.2.2).st.lives = st.lives - nonHitCount (GameEvent.popResult _ ::
                      (game_run_level_go env lvl_idx pops remaining (pop + 1) s5 d3
                        pp.2.2.2.2).out)
                  rw [hnh]
                  have := ihl hab
                  omega
                · rintro ⟨q, hq, hq0⟩
                  rcases List.mem_cons.mp hq with heq | hmem
                  · injection heq with h
                    subst h
                    have : s5.lives = 0 := hq0
                    omega
                  · exact ihz ⟨q, hmem, hq0⟩

theorem sessionEndFree_append (xs ys : List GameEvent)
    (hx : SessionEndFree xs) (hy : SessionEndFree ys) :
    SessionEndFree (xs ++ ys) := by
  intro b hb
  rcases List.mem_append.mp hb with h | h
  · exact hx b h
  · exact hy b h

/-- Behaviour of the level loop of `game_run` (together with the code
after it): the emitted events form a lives chain from the entry lives; at
most that many non-hits occur; a non-fuel-out exit emits exactly one
`SessionEnd`, as the last event, with `won` determined by the exit kind;
a `lives = 0` pop result is followed by `SessionEnd{won=false}` at the
end; and `SessionEnd{won=false}` occurs only on a reset abort or after a
`lives = 0` pop result. -/
theorem game_run_loop_spec (env : GameEnv) :
    ∀ (fuel lvl : Nat) (st : GameSt) (dIdx rIdx : Nat),
      st.reset_abort_session = false → 1 ≤ st.lives → st.lives ≤ 256 →
      LivesChain st.lives (game_run_loop env fuel lvl st dIdx rIdx).1.out ∧
      nonHitCount (game_run_loop env fuel lvl st dIdx rIdx).1.out ≤ st.lives ∧
      ((game_run_loop env fuel lvl st dIdx rIdx).2 = RunExit.fuelOut →
        SessionEndFree (game_run_loop env fuel lvl st dIdx rIdx).1.out) ∧
      ((game_run_loop env fuel lvl st dIdx rIdx).2 ≠ RunExit.fuelOut →
        ∃ (pre : List GameEvent) (w : Bool),
          (game_run_loop env fuel lvl st dIdx rIdx).1.out =
            pre ++ [GameEvent.sessionEnd w] ∧ SessionEndFree pre ∧
          ((game_run_loop env fuel lvl st dIdx rIdx).2 = RunExit.abortEnd → w = false) ∧
          ((game_run_loop env fuel lvl st dIdx rIdx).2 = RunExit.gameOver → w = false) ∧
          ((game_run_loop env fuel lvl st dIdx rIdx).2 = RunExit.win → w = true)) ∧
      ((∃ p : PopData,
          GameEvent.popResult p ∈ (game_run_loop env fuel lvl st dIdx rIdx).1.out ∧
          p.lives = 0) →
        (game_run_loop env fuel lvl st dIdx rIdx).1.out.getLast? =
          some (GameEvent.sessionEnd false)) ∧
      (GameEvent.sessionEnd false ∈ (game_run_loop env fuel lvl st dIdx rIdx).1.out →
        (game_run_loop env fuel lvl st dIdx rIdx).2 = RunExit.abortEnd ∨
        ∃ p : PopData,
          GameEvent.popResult p ∈ (game_run_loop env fuel lvl st dIdx rIdx).1.out ∧
          p.lives = 0) := by
  intro fuel
  induction fuel with
  | zero =>
    intro lvl st dIdx rIdx h0 h1 h2
    refine ⟨trivial, by simp [nonHitCount], fun _ => sessionEndFree_nil,
      fun hne => absurd rfl hne, ?_, ?_⟩
    · rintro ⟨p, hp, _⟩
      exact absurd hp (List.not_mem_nil _)
    · intro hb
      exact absurd hb (List.not_mem_nil _)
  | succ fuel ih =>
    intro lvl st dIdx rIdx h0 h1 h2
    simp only [game_run_loop]
    by_cases hlvl : lvl < LVLS
    · rw [if_pos hlvl]
      set r1 : GameOut := game_run_level lvl (POPS_PER_LVL.getD lvl 0) st env dIdx rIdx
        with hr1
      obtain ⟨Lc, Ln, Lf, Ll, Lz⟩ :=
        game_run_level_go_spec env lvl (POPS_PER_LVL.getD lvl 0)
          (POPS_PER_LVL.getD lvl 0) 0 st dIdx rIdx h0 h1 h2 r1
          (by rw [hr1]; rfl)
      by_cases ha : r1.st.reset_abort_session = true
      · rw [if_pos ha]
        refine ⟨?_, ?_, ?_, ?_, ?_, ?_⟩
        · exact (livesChain_append r1.out st.lives _).mpr ⟨Lc, trivial⟩
        · show nonHitCount (r1.out ++ [GameEvent.sessionEnd false]) ≤ st.lives
          rw [nonHitCount_append]
          simpa [nonHitCount] using Ln
        · intro hf
          exact RunExit.noConfusion hf
        · intro _
          exact ⟨r1.out, false, rfl, Lf, fun _ => rfl, fun _ => rfl,
            fun hw => RunExit.noConfusion hw⟩
        · rintro ⟨q, hq, hq0⟩
          rcases List.mem_append.mp hq with hmem | hmem
          · have := (Lz ⟨q, hmem, hq0⟩).2
            rw [ha] at this
            exact Bool.noConfusion this
          · rcases List.mem_cons.mp hmem with heq | hnil
            · exact GameEvent.noConfusion heq
            · exact absurd hnil (List.not_mem_nil _)
        · intro _
          left; rfl
      · rw [if_neg ha]
        simp only [Bool.not_eq_true] at ha
        by_cases hl0 : r1.st.lives = 0
        · rw [if_pos hl0]
          refine ⟨?_, ?_, ?_, ?_, ?_, ?_⟩
          · exact (livesChain_append r1.out st.lives _).mpr ⟨Lc, trivial⟩
          · show nonHitCount (r1.out ++ [GameEvent.sessionEnd false]) ≤ st.lives
            rw [nonHitCount_append]
            simpa [nonHitCount] using Ln
          · intro hf
            exact RunExit.noConfusion hf
          · intro _
            exact ⟨r1.out, false, rfl, Lf, fun _ => rfl, fun _ => rfl,
              fun hw => RunExit.noConfusion hw⟩
          · intro _
            show (r1.out ++ [GameEvent.sessionEnd false]).getLast? =
              some (GameEvent.sessionEnd false)
            rw [List.getLast?_append_cons]
            rfl
          · intro _
            right
            have hle : st.lives ≤ nonHitCount r1.out := by
              have := Ll ha
              omega
            obtain ⟨q, hq, hq0⟩ := livesChain_zero_mem r1.out st.lives Lc hle h1
            exact ⟨q, List.mem_append_left _ hq, hq0⟩
        · rw [if_neg hl0]
          have hab' : (drain_cmd_queue r1.st env r1.dIdx).1.reset_abort_session = false := by
            rw [drain_abort]; exact ha
          have hlv' : (drain_cmd_queue r1.st env r1.dIdx).1.lives = r1.st.lives :=
            drain_lives _ _ _
          have hlvst : r1.st.lives = st.lives - nonHitCount r1.out := Ll ha
          by_cases hrq : (drain_cmd_queue r1.st env r1.dIdx).1.reset_requested = true
          · rw [if_pos hrq]
            refine ⟨?_, ?_, ?_, ?_, ?_, ?_⟩
            · exact (livesChain_append r1.out st.lives _).mpr ⟨Lc, trivial⟩
            · show nonHitCount (r1.out ++ [GameEvent.sessionEnd false]) ≤ st.lives
              rw [nonHitCount_append]
              simpa [nonHitCount] using Ln
            · intro hf
              exact RunExit.noConfusion hf
            · intro _
              exact ⟨r1.out, false, rfl, Lf, fun _ => rfl, fun _ => rfl,
                fun hw => RunExit.noConfusion hw⟩
            · rintro ⟨q, hq, hq0⟩
              rcases List.mem_append.mp hq with hmem | hmem
              · have := (Lz ⟨q, hmem, hq0⟩).1
                exact absurd this hl0
              · rcases List.mem_cons.mp hmem with heq | hnil
                · exact GameEvent.noConfusion heq
                · exact absurd hnil (List.not_mem_nil _)
            · intro _
              left; rfl
          · rw [if_neg hrq]
            -- the three continuation shapes share this argument
            have hrec : ∀ (lvl' : Nat) (st' : GameSt) (d' : Nat),
                st'.reset_abort_session = false → st'.lives = r1.st.lives →
                LivesChain st.lives
                  (r1.out ++ (game_run_loop env fuel lvl' st' d' r1.rIdx).1.out) ∧
                nonHitCount
                  (r1.out ++ (game_run_loop env fuel lvl' st' d' r1.rIdx).1.out) ≤
                  st.lives ∧
                ((game_run_loop env fuel lvl' st' d' r1.rIdx).2 = RunExit.fuelOut →
                  SessionEndFree
                    (r1.out ++ (game_run_loop env fuel lvl' st' d' r1.rIdx).1.out)) ∧
                ((game_run_loop env fuel lvl' st' d' r1.rIdx).2 ≠ RunExit.fuelOut →
                  ∃ (pre : List GameEvent) (w : Bool),
                    r1.out ++ (game_run_loop env fuel lvl' st' d' r1.rIdx).1.out =
                      pre ++ [GameEvent.sessionEnd w] ∧ SessionEndFree pre ∧
                    ((game_run_loop env fuel lvl' st' d' r1.rIdx).2 = RunExit.abortEnd →
                      w = false) ∧
                    ((game_run_loop env fuel lvl' st' d' r1.rIdx).2 = RunExit.gameOver →
                      w = false) ∧
                    ((game_run_loop env fuel lvl' st' d' r1.rIdx).2 = RunExit.win →
                      w = true)) ∧
                ((∃ p : PopData, GameEvent.popResult p ∈
                    r1.out ++ (game_run_loop env fuel lvl' st' d' r1.rIdx).1.out ∧
                    p.lives = 0) →
                  (r1.out ++ (game_run_loop env fuel lvl' st' d' r1.rIdx).1.out).getLast? =
                    some (GameEvent.sessionEnd false)) ∧
                (GameEvent.sessionEnd false ∈
                    r1.out ++ (game_run_loop env fuel lvl' st' d' r1.rIdx).1.out →
                  (game_run_loop env fuel lvl' st' d' r1.rIdx).2 = RunExit.abortEnd ∨
                  ∃ p : PopData, GameEvent.popResult p ∈
                    r1.out ++ (game_run_loop env fuel lvl' st' d' r1.rIdx).1.out ∧
                    p.lives = 0) := by
              intro lvl' st' d' hab0 hlv0
              have h1' : 1 ≤ st'.lives := by omega
              have h2' : st'.lives ≤ 256 := by omega
              obtain ⟨Kc, Kn, Kf, Ks, Kz, Ke⟩ := ih lvl' st' d' r1.rIdx hab0 h1' h2'
              refine ⟨?_, ?_, ?_, ?_, ?_, ?_⟩
              · refine (livesChain_append r1.out st.lives _).mpr ⟨Lc, ?_⟩
                rw [← hlvst, ← hlv0]
                exact Kc
              · rw [nonHitCount_append]
                have : nonHitCount (game_run_loop env fuel lvl' st' d' r1.rIdx).1.out ≤
                    st'.lives := Kn
                omega
              · intro hf
                exact sessionEndFree_append _ _ Lf (Kf hf)
              · intro hne
                obtain ⟨pre, w, hout, hpre, hwa, hwg, hww⟩ := Ks hne
                exact ⟨r1.out ++ pre, w, by rw [hout, List.append_assoc],
                  sessionEndFree_append _ _ Lf hpre, hwa, hwg, hww⟩
              · rintro ⟨q, hq, hq0⟩
                rcases List.mem_append.mp hq with hmem | hmem
                · have := (Lz ⟨q, hmem, hq0⟩).1
                  exact absurd this hl0
                · have hlast := Kz ⟨q, hmem, hq0⟩
                  have hne : (game_run_loop env fuel lvl' st' d' r1.rIdx).1.out ≠ [] := by
                    intro hnil
                    rw [hnil] at hlast
                    exact Option.noConfusion hlast
                  rw [List.getLast?_append_of_ne_nil _ hne]
                  exact hlast
              · intro hb
                rcases List.mem_append.mp hb with hmem | hmem
                · exact absurd hmem (Lf false)
                · rcases Ke hmem with hex | ⟨q, hq, hq0⟩
                  · exact Or.inl hex
                  · exact Or.inr ⟨q, List.mem_append_right _ hq, hq0⟩
            by_cases hpend : (drain_cmd_queue r1.st env r1.dIdx).1.level_change_pending = true
            · rw [if_pos hpend]
              by_cases htgt : requested_level_or_default
                  (drain_cmd_queue r1.st env r1.dIdx).1 ≠ lvl
              · rw [if_pos htgt]
                exact hrec _ _ _ hab' hlv'
              · rw [if_neg htgt]
                exact hrec _ _ _ hab' hlv'
            · rw [if_neg hpend]
              exact hrec _ _ _ hab' hlv'
    · rw [if_neg hlvl]
      by_cases hrq : st.reset_requested = true
      · rw [if_pos hrq]
        refine ⟨trivial, by simp [nonHitCount], ?_, ?_, ?_, ?_⟩
        · intro hf
          exact RunExit.noConfusion hf
        · intro _
          exact ⟨[], false, rfl, sessionEndFree_nil, fun _ => rfl, fun _ => rfl,
            fun hw => RunExit.noConfusion hw⟩
        · rintro ⟨q, hq, _⟩
          rcases List.mem_cons.mp hq with heq | hnil
          · exact GameEvent.noConfusion heq
          · exact absurd hnil (List.not_mem_nil _)
        · intro _
          left; rfl
      · rw [if_neg hrq]
        refine ⟨trivial, by simp [nonHitCount], ?_, ?_, ?_, ?_⟩
        · intro hf
          exact RunExit.noConfusion hf
        · intro _
          exact ⟨[], true, rfl, sessionEndFree_nil, fun hw => RunExit.noConfusion hw,
            fun hw => RunExit.noConfusion hw, fun _ => rfl⟩
        · rintro ⟨q, hq, _⟩
          rcases List.mem_cons.mp hq with heq | hnil
          · exact GameEvent.noConfusion heq
          · exact absurd hnil (List.not_mem_nil _)
        · intro hb
          rcases List.mem_cons.mp hb with heq | hnil
          · injection heq with hw
            exact Bool.noConfusion hw
          · exact absurd hnil (List.not_mem_nil _)

/-- C7: whenever a reset aborts an in-progress session (`game_run` exits
by the abort path), `SessionEnd{won=false}` is the last event emitted for
the session and no other `SessionEnd` precedes it; more generally, any
`SessionEnd` emitted during `game_run` is the final event of the session
and is unique. -/
theorem c7_reset_abort_single_session_end (st : GameSt) (env : GameEnv)
    (dIdx rIdx fuel : Nat) (h0 : st.reset_abort_session = false) :
    ((game_run st env dIdx rIdx fuel).2 = RunExit.abortEnd →
      (game_run st env dIdx rIdx fuel).1.out.getLast? =
        some (GameEvent.sessionEnd false) ∧
      SessionEndFree (game_run st env dIdx rIdx fuel).1.out.dropLast) ∧
    (∀ w : Bool, GameEvent.sessionEnd w ∈ (game_run st env dIdx rIdx fuel).1.out →
      (game_run st env dIdx rIdx fuel).1.out.getLast? =
        some (GameEvent.sessionEnd w) ∧
      SessionEndFree (game_run st env dIdx rIdx fuel).1.out.dropLast) := by
  simp only [game_run]
  by_cases hrq : (drain_cmd_queue
      { st with lives := LIVES, rng_state := RNG_INIT_STATE } env dIdx).1.reset_requested
      = true
  · rw [if_pos hrq]
    constructor
    · intro hex
      exact RunExit.noConfusion hex
    · intro w hmem
      exact absurd hmem (List.not_mem_nil _)
  · rw [if_neg hrq]
    set s0 : GameSt := (drain_cmd_queue
      { st with lives := LIVES, rng_state := RNG_INIT_STATE } env dIdx).1 with hs0
    set d0 : Nat := (drain_cmd_queue
      { st with lives := LIVES, rng_state := RNG_INIT_STATE } env dIdx).2 with hd0
    set s1 : GameSt := { s0 with level_change_pending := false, start_requested := false }
      with hs1
    have hab : s1.reset_abort_session = false := by
      rw [hs1]
      show s0.reset_abort_session = false
      rw [hs0, drain_abort]
      exact h0
    have hlv : s1.lives = LIVES := by
      rw [hs1]
      show s0.lives = LIVES
      rw [hs0, drain_lives]
    obtain ⟨Kc, Kn, Kf, Ks, Kz, Ke⟩ :=
      game_run_loop_spec env fuel (requested_level_or_default s0) s1 d0 rIdx hab
        (by rw [hlv]; decide) (by rw [hlv]; decide)
    constructor
    · intro hex
      have hne : (game_run_loop env fuel (requested_level_or_default s0) s1 d0 rIdx).2 ≠
          RunExit.fuelOut := by
        intro hf
        rw [hf] at hex
        exact RunExit.noConfusion hex
      obtain ⟨pre, w, hout, hpre, hwa, _, _⟩ := Ks hne
      have hw : w = false := hwa hex
      subst hw
      constructor
      · show (GameEvent.sessionStart ::
          (game_run_loop env fuel (requested_level_or_default s0) s1 d0 rIdx).1.out).getLast?
          = some (GameEvent.sessionEnd false)
        rw [hout]
        rw [show GameEvent.sessionStart :: (pre ++ [GameEvent.sessionEnd false]) =
          (GameEvent.sessionStart :: pre) ++ [GameEvent.sessionEnd false] from rfl]
        rw [List.getLast?_append_cons]
        rfl
      · show SessionEndFree (GameEvent.sessionStart ::
          (game_run_loop env fuel (requested_level_or_default s0) s1 d0 rIdx).1.out).dropLast
        rw [hout]
        rw [show GameEvent.sessionStart :: (pre ++ [GameEvent.sessionEnd false]) =
          (GameEvent.sessionStart :: pre) ++ [GameEvent.sessionEnd false] from rfl]
        rw [List.dropLast_concat]
        intro b hb
        rcases List.mem_cons.mp hb with heq | hmem
        · exact GameEvent.noConfusion heq
        · exact hpre b hmem
    · intro w hmem
      have hmem' : GameEvent.sessionEnd w ∈
          (game_run_loop env fuel (requested_level_or_default s0) s1 d0 rIdx).1.out := by
        rcases List.mem_cons.mp hmem with heq | hm
        · exact absurd heq (fun h => GameEvent.noConfusion h)
        · exact hm
      by_cases hf : (game_run_loop env fuel (requested_level_or_default s0) s1 d0 rIdx).2 =
          RunExit.fuelOut
      · exact absurd hmem' (Kf hf w)
      · obtain ⟨pre, w', hout, hpre, _, _, _⟩ := Ks hf
        have hw : w = w' := by
          rw [hout] at hmem'
          rcases List.mem_append.mp hmem' with h | h
          · exact absurd h (hpre w)
          · rcases List.mem_cons.mp h with heq | hnil
            · injection heq
            · exact absurd hnil (List.not_mem_nil _)
        subst hw
        constructor
        · show (GameEvent.sessionStart ::
            (game_run_loop env fuel (requested_level_or_default s0) s1 d0 rIdx).1.out).getLast?
            = some (GameEvent.sessionEnd w)
          rw [hout]
          rw [show GameEvent.sessionStart :: (pre ++ [GameEvent.sessionEnd w]) =
            (GameEvent.sessionStart :: pre) ++ [GameEvent.sessionEnd w] from rfl]
          rw [List.getLast?_append_cons]
          rfl
        · show SessionEndFree (GameEvent.sessionStart ::
            (game_run_loop env fuel (requested_level_or_default s0) s1 d0 rIdx).1.out).dropLast
          rw [hout]
          rw [show GameEvent.sessionStart :: (pre ++ [GameEvent.sessionEnd w]) =
            (GameEvent.sessionStart :: pre) ++ [GameEvent.sessionEnd w] from rfl]
          rw [List.dropLast_concat]
          intro b hb
          rcases List.mem_cons.mp hb with heq | hm
          · exact GameEvent.noConfusion heq
          · exact hpre b hm

/-- C7 witness: a concrete reset-aborted session. -/
theorem c7_reset_abort_single_session_end_witness :
    (game_run game_static_init c7Env 0 0 1).1.out.getLast? =
      some (GameEvent.sessionEnd false) ∧
    SessionEndFree (game_run game_static_init c7Env 0 0 1).1.out.dropLast :=
  (c7_reset_abort_single_session_end game_static_init c7Env 0 0 1 rfl).1 rfl

/-- C6 (amended): within a session, lives starts at `LIVES = 5`, is
decremented by exactly one on each non-`Hit` pop result and unchanged on
`Hit` (the `LivesChain`), is decremented at most 5 times (never below 0),
and a pop result with `lives = 0` is followed by `SessionEnd{won=false}`
as the session's final event; conversely `SessionEnd{won=false}` is
emitted only when lives reached 0 **or the session was aborted by a
reset** (the reset abort is the exception to the claim's "iff"). -/
theorem c6_lives_arithmetic (st : GameSt) (env : GameEnv)
    (dIdx rIdx fuel : Nat) (h0 : st.reset_abort_session = false) :
    LivesChain LIVES (game_run st env dIdx rIdx fuel).1.out ∧
    nonHitCount (game_run st env dIdx rIdx fuel).1.out ≤ LIVES ∧
    ((∃ p : PopData,
        GameEvent.popResult p ∈ (game_run st env dIdx rIdx fuel).1.out ∧
        p.lives = 0) →
      (game_run st env dIdx rIdx fuel).1.out.getLast? =
        some (GameEvent.sessionEnd false)) ∧
    (GameEvent.sessionEnd false ∈ (game_run st env dIdx rIdx fuel).1.out →
      (game_run st env dIdx rIdx fuel).2 = RunExit.abortEnd ∨
      ∃ p : PopData,
        GameEvent.popResult p ∈ (game_run st env dIdx rIdx fuel).1.out ∧
        p.lives = 0) := by
  simp only [game_run]
  by_cases hrq : (drain_cmd_queue
      { st with lives := LIVES, rng_state := RNG_INIT_STATE } env dIdx).1.reset_requested
      = true
  · rw [if_pos hrq]
    refine ⟨trivial, by simp [nonHitCount], ?_, ?_⟩
    · rintro ⟨p, hp, _⟩
      exact absurd hp (List.not_mem_nil _)
    · intro hb
      exact absurd hb (List.not_mem_nil _)
  · rw [if_neg hrq]
    set s0 : GameSt := (drain_cmd_queue
      { st with lives := LIVES, rng_state := RNG_INIT_STATE } env dIdx).1 with hs0
    set d0 : Nat := (drain_cmd_queue
      { st with lives := LIVES, rng_state := RNG_INIT_STATE } env dIdx).2 with hd0
    set s1 : GameSt := { s0 with level_change_pending := false, start_requested := false }
      with hs1
    have hab : s1.reset_abort_session = false := by
      rw [hs1]
      show s0.reset_abort_session = false
      rw [hs0, drain_abort]
      exact h0
    have hlv : s1.lives = LIVES := by
      rw [hs1]
      show s0.lives = LIVES
      rw [hs0, drain_lives]
    obtain ⟨Kc, Kn, Kf, Ks, Kz, Ke⟩ :=
      game_run_loop_spec env fuel (requested_level_or_default s0) s1 d0 rIdx hab
        (by rw [hlv]; decide) (by rw [hlv]; decide)
    rw [hlv] at Kc Kn
    refine ⟨?_, ?_, ?_, ?_⟩
    · exact Kc
    · exact Kn
    · rintro ⟨p, hp, hp0⟩
      have hp' : GameEvent.popResult p ∈
          (game_run_loop env fuel (requested_level_or_default s0) s1 d0 rIdx).1.out := by
        rcases List.mem_cons.mp hp with heq | hm
        · exact absurd heq (fun h => GameEvent.noConfusion h)
        · exact hm
      have hlast := Kz ⟨p, hp', hp0⟩
      show (GameEvent.sessionStart ::
        (game_run_loop env fuel (requested_level_or_default s0) s1 d0 rIdx).1.out).getLast?
        = some (GameEvent.sessionEnd false)
      have hne : (game_run_loop env fuel (requested_level_or_default s0) s1 d0 rIdx).1.out
          ≠ [] := by
        intro hnil
        rw [hnil] at hlast
        exact Option.noConfusion hlast
      rw [show GameEvent.sessionStart ::
          (game_run_loop env fuel (requested_level_or_default s0) s1 d0 rIdx).1.out =
          [GameEvent.sessionStart] ++
          (game_run_loop env fuel (requested_level_or_default s0) s1 d0 rIdx).1.out
          from rfl]
      rw [List.getLast?_append_of_ne_nil _ hne]
      exact hlast
    · intro hb
      have hb' : GameEvent.sessionEnd false ∈
          (game_run_loop env fuel (requested_level_or_default s0) s1 d0 rIdx).1.out := by
        rcases List.mem_cons.mp hb with heq | hm
        · exact absurd heq (fun h => GameEvent.noConfusion h)
        · exact hm
      rcases Ke hb' with hex | ⟨p, hp, hp0⟩
      · exact Or.inl hex
      · exact Or.inr ⟨p, List.mem_cons_of_mem _ hp, hp0⟩

/-- C6 (counterexample): a reset-aborted session emits
`SessionEnd{won=false}` although lives never reached 0 — the run below
ends with lives still at 5 and contains no `PopResult` at all, so
"`lives` is 0 iff `SessionEnd{won=false}` follows" fails in the
only-if direction. -/
theorem c6_lives_zero_iff_counterexample :
    game_run game_static_init c6Env 0 0 1 =
      (⟨⟨LIVES, RNG_INIT_STATE, 0, false, false, false, false⟩, 3, 0,
        [GameEvent.sessionStart, GameEvent.sessionEnd false]⟩, RunExit.abortEnd) ∧
    GameEvent.sessionEnd false ∈ (game_run game_static_init c6Env 0 0 1).1.out ∧
    (game_run game_static_init c6Env 0 0 1).1.st.lives = 5 ∧
    ¬ (∃ p : PopData,
        GameEvent.popResult p ∈ (game_run game_static_init c6Env 0 0 1).1.out ∧
        p.lives = 0) := by
  refine ⟨rfl, ?_, rfl, ?_⟩
  · show GameEvent.sessionEnd false ∈
      [GameEvent.sessionStart, GameEvent.sessionEnd false]
    simp
  · rintro ⟨p, hp, _⟩
    have hp' : GameEvent.popResult p ∈
        [GameEvent.sessionStart, GameEvent.sessionEnd false] := hp
    simp at hp'

/-- C6 witness: the amended lives arithmetic at a concrete run. -/
theorem c6_lives_arithmetic_witness :
    LivesChain LIVES (game_run game_static_init c6Env 0 0 1).1.out ∧
    nonHitCount (game_run game_static_init c6Env 0 0 1).1.out ≤ LIVES :=
  ⟨(c6_lives_arithmetic game_static_init c6Env 0 0 1 rfl).1,
    (c6_lives_arithmetic game_static_init c6Env 0 0 1 rfl).2.1⟩

set_option maxRecDepth 8000 in
/-- C4 witness: with no press the pop is `Late` with `reaction_ms` equal
to the level-1 duration; with an immediate press the pop is a `Hit` whose
`reaction_ms` is a multiple of 5 within the bound. -/
theorem c4_reaction_time_bounds_witness :
    ((pop_do 0 RNG_INIT_STATE (fun _ => BTN_HW_STATE) 0).2.2.1 =
      POP_DURATIONS.getD 0 0) ∧
    (5 ∣ (pop_do 0 RNG_INIT_STATE (fun _ => 0) 0).2.2.1 ∧
      (pop_do 0 RNG_INIT_STATE (fun _ => 0) 0).2.2.1 ≤ POP_DURATIONS.getD 0 0) :=
  ⟨(c4_reaction_time_bounds 0 RNG_INIT_STATE 0 (fun _ => BTN_HW_STATE)).2 rfl,
    (c4_reaction_time_bounds 0 RNG_INIT_STATE 0 (fun _ => 0)).1 rfl⟩

end Whacamole
